import Mathlib

/-! # Engine: video track assembly, playback dispatch and PS publishing

A shallow embedding of `video_track.go` (`VideoTrack.Push`, `setRtmpTag`,
`Play`), `publisher-ps.go` (`PushPS`, `ReceiveVideo`, `ReceiveAudio`) and the
config handlers of `http.go` (`API_getConfig`, `API_modifyConfig`,
`API_updateConfig`).

Conventions of the embedding.

* Bytes are natural numbers below 256; byte arithmetic is written with an
  explicit `% 256`, 16-bit sequence arithmetic with `% 65536`.
* A Go byte slice is modelled by its contents (a `List Nat`); that two slices
  may share a backing array is not modelled.  An index is bounded by the
  length.  A slice expression `s[a:b]` is bounded by the capacity: where the
  code cuts a sub-slice out of a payload and keeps it (the sub-units of an
  aggregated payload, the cached SPS), the bytes that lie behind it in its
  backing array, up to its capacity, are carried along as its `spare`.
  `VideoTrack.PushSlice` is `Push` on a payload with such bytes behind it;
  `VideoTrack.Push` is the call on a payload whose capacity is its length, as
  for a slice literal.  A slice returned by `append` is given capacity equal
  to its length (the language promises no more).
* A Go pointer that may be nil is an `Option`; reading a field through nil is
  a run-time panic.
* Go code that can panic or fail to terminate returns an `Outcome`.
  `VideoTrack.Push` is recursive without a decreasing measure, so it carries a
  fuel argument counting nested calls; `Outcome.outOfFuel` means the nesting
  is deeper than the fuel given.
-/

namespace Engine

/-! ## Outcomes -/

/-- Run-time panics of the Go code that the embedding distinguishes. -/
inductive PanicKind where
  | indexOutOfRange
  | sliceOutOfRange
  | closeOfClosedChannel
  | nilPointerDereference
  deriving DecidableEq, Repr

/-- Result of running a piece of Go code in the model. -/
inductive Outcome (α : Type) where
  | ok (a : α)
  | panic (k : PanicKind)
  | outOfFuel
  deriving DecidableEq, Repr

/-- Sequencing of outcomes: the first panic or fuel exhaustion wins. -/
def Outcome.bind {α β : Type} (o : Outcome α) (f : α → Outcome β) : Outcome β :=
  match o with
  | .ok a => f a
  | .panic k => .panic k
  | .outOfFuel => .outOfFuel

/-! ## Constants of `video_track.go` and of the codec package -/

def fuaHeaderSize : Nat := 2
def stapaHeaderSize : Nat := 1
def stapaNALULengthSize : Nat := 2

def naluTypeBitmask : Nat := 0x1F
def naluRefIdcBitmask : Nat := 0x60
def fuaStartBitmask : Nat := 0x80
def fuaEndBitmask : Nat := 0x40

/-- H.264 unit types used by `Push` (values of the codec package). -/
def NALU_Non_IDR_Picture : Nat := 1
def NALU_IDR_Picture : Nat := 5
def NALU_SEI : Nat := 6
def NALU_SPS : Nat := 7
def NALU_PPS : Nat := 8
def NALU_Access_Unit_Delimiter : Nat := 9
def NALU_Filler_Data : Nat := 12
def NALU_STAPA : Nat := 24
def NALU_FUA : Nat := 28

/-- The constant `codec.RTMP_AVC_HEAD`, declared in the codec package outside
the sources, with the value of the AVC sequence-header prefix of that package.
The general theorems use at most its length. -/
def RTMP_AVC_HEAD : List Nat := [0x17, 0x00, 0x00, 0x00, 0x00, 0x01, 0x42, 0x00, 0x1E, 0xFF]

/-! ## Data model -/

/-- One published video unit (`VideoPack`). -/
structure VideoPack where
  Timestamp : Nat
  Payload : List Nat
  NalType : Nat
  Sequence : Nat
  deriving DecidableEq, Repr

/-- Modelled from the spec: the ring of the track (`Track_Video.Buffer`), whose
declaration is not among the sources.  A fixed circular slot array with a write
index; `Push` and `Play` use the index as a `byte`, so it lives modulo 256 and
`Current` is the slot at `Index`. -/
structure Ring where
  Index : Nat
  buffer : Nat → VideoPack

/-- The slot `vbr.Current`. -/
def Ring.Current (r : Ring) : VideoPack := r.buffer r.Index

/-- Assignment through the pointer `vbr.Current`. -/
def Ring.setCurrent (r : Ring) (v : VideoPack) : Ring :=
  { r with buffer := Function.update r.buffer r.Index v }

/-- Modelled from the spec: `NextW`, which "advances the write cursor to publish
the slot"; the cursor is a byte. -/
def Ring.NextW (r : Ring) : Ring :=
  { r with Index := (r.Index + 1) % 256 }

/-- The type `VideoTrack` with the fields of the embedded `Track_Video` that
`Push` reads or writes (`Buffer`, `PacketCount` and the byte counter of the
bitrate accounting).  `SPSSpare` holds the bytes behind `SPS` in its backing
array, up to `cap(vt.SPS)`.  `RtmpTag` is `none` for a nil slice.  `SPSInfo` is
kept as the payload handed to the external `codec.ParseSPS`.  `WaitFirst` is
`true` once the channel is closed. -/
structure VideoTrack where
  FirstScreen : Nat
  Buffer : Ring
  PacketCount : Nat
  bytes : Nat
  SPS : List Nat
  SPSSpare : List Nat
  PPS : List Nat
  SPSInfo : List Nat
  GOP : Nat
  RtmpTag : Option (List Nat)
  WaitFirst : Bool

/-- Modelled from the spec: `Track_Video.GetBPS`, not among the sources.  It
"updates bitrate accounting" and counts the published unit, which makes the
sequence numbers stored in the slots increase. -/
def VideoTrack.GetBPS (vt : VideoTrack) (payloadLen : Nat) : VideoTrack :=
  { vt with PacketCount := vt.PacketCount + 1, bytes := vt.bytes + payloadLen }

/-- Go's `close(vt.WaitFirst)`: closing a closed channel panics. -/
def VideoTrack.closeWaitFirst (vt : VideoTrack) : Outcome VideoTrack :=
  if vt.WaitFirst then .panic .closeOfClosedChannel else .ok { vt with WaitFirst := true }

/-- Go's `copy(dst, src)`: overwrites the first `min (len dst) (len src)` bytes. -/
def goCopy (dst src : List Nat) : List Nat :=
  src.take dst.length ++ dst.drop src.length

/-- The body of `setRtmpTag` with the external constant `codec.RTMP_AVC_HEAD`
as the parameter `head`. -/
def VideoTrack.setRtmpTagWith (head : List Nat) (vt : VideoTrack) : Outcome VideoTrack :=
  let lenSPS := vt.SPS.length
  let lenPPS := vt.PPS.length
  let tag := [] ++ head
  -- vt.RtmpTag[6:]
  if tag.length < 6 then .panic .sliceOutOfRange
  -- vt.SPS[1:4], bounded by cap(vt.SPS)
  else if vt.SPS.length + vt.SPSSpare.length < 4 then .panic .sliceOutOfRange
  else
    let tag := tag.take 6 ++ goCopy (tag.drop 6) (((vt.SPS ++ vt.SPSSpare).drop 1).take 3)
    let tag := tag ++ [0xE1, (lenSPS >>> 8) % 256, lenSPS % 256]
    let tag := tag ++ vt.SPS
    let tag := (tag ++ [0x01, (lenPPS >>> 8) % 256, lenPPS % 256]) ++ vt.PPS
    .ok { vt with RtmpTag := some tag }

/-- The function `setRtmpTag`. -/
def VideoTrack.setRtmpTag (vt : VideoTrack) : Outcome VideoTrack :=
  vt.setRtmpTagWith RTMP_AVC_HEAD

/-- The function `binary.BigEndian.Uint16` on the two leading bytes. -/
def Uint16 (b0 b1 : Nat) : Nat := b0 * 256 + b1

/-- The STAP-A loop of `Push` (lines 52-60) on a payload with the bytes
`spare` behind it.  `push` is the recursive call `vt.Push(timestamp, ·)`, which
receives the sub-unit and the bytes behind the sub-unit: the slice expression
is bounded by the capacity of the payload and the sub-slice keeps the rest of
the backing array.  Every iteration moves `currOffset` forward by at least
two, so `payload.length` iterations always suffice; `n` counts them. -/
def stapaLoop (push : VideoTrack → List Nat → List Nat → Outcome VideoTrack)
    (payload spare : List Nat) : Nat → Nat → VideoTrack → Outcome VideoTrack
  | 0, currOffset, vt =>
    if currOffset < payload.length then .outOfFuel else .ok vt
  | n + 1, currOffset, vt =>
    if currOffset < payload.length then
      match payload.drop currOffset with
      | b0 :: b1 :: _ =>
        let naluSize := Uint16 b0 b1
        let currOffset := currOffset + stapaNALULengthSize
        if currOffset + payload.length < currOffset + naluSize then
          .ok vt
        -- payload[currOffset:currOffset+naluSize], bounded by cap(payload)
        else if payload.length + spare.length < currOffset + naluSize then
          .panic .sliceOutOfRange
        else
          match push vt (((payload ++ spare).drop currOffset).take naluSize)
              ((payload ++ spare).drop (currOffset + naluSize)) with
          | .ok vt1 => stapaLoop push payload spare n (currOffset + naluSize) vt1
          | .panic k => .panic k
          | .outOfFuel => .outOfFuel
      | _ => .panic .indexOutOfRange
    else .ok vt

/-- The track after the slot `*video` (the current slot of its ring) is
overwritten with `v`. -/
def VideoTrack.withCurrent (vt : VideoTrack) (v : VideoPack) : VideoTrack :=
  { vt with Buffer := vt.Buffer.setCurrent v }

/-- The writes through `video` that open every call with a non-empty payload
(lines 46-49): unit type, timestamp and sequence of the current slot. -/
def VideoTrack.stamp (vt : VideoTrack) (timestamp b0 : Nat) : VideoTrack :=
  vt.withCurrent
    { vt.Buffer.Current with NalType := b0 &&& naluTypeBitmask, Timestamp := timestamp,
                             Sequence := vt.PacketCount }

/-- Assignment to `video.Payload`. -/
def VideoTrack.setPayload (vt : VideoTrack) (payload : List Nat) : VideoTrack :=
  vt.withCurrent { vt.Buffer.Current with Payload := payload }

/-- The picture handling shared by key and non-key pictures (lines 96-98). -/
def VideoTrack.publish (vt : VideoTrack) (payload : List Nat) : VideoTrack :=
  let vt := vt.setPayload payload
  let vt := vt.GetBPS payload.length
  { vt with Buffer := vt.Buffer.NextW }

/-- The cases of the switch of `Push` that make no recursive call (lines
77-103), on the track after the opening writes; `spare` are the bytes behind
the payload, which `vt.SPS = payload` keeps. -/
def VideoTrack.pushDirect (vt : VideoTrack) (nalType : Nat) (payload spare : List Nat) :
    Outcome VideoTrack :=
  if nalType = NALU_SPS then
    .ok { vt with SPS := payload, SPSSpare := spare, SPSInfo := payload }
  else if nalType = NALU_PPS then
    .ok { vt with PPS := payload }
  else if nalType = NALU_Access_Unit_Delimiter then
    .ok vt
  else if nalType = NALU_IDR_Picture then
    if vt.RtmpTag = none then
      let vt := { vt with FirstScreen := vt.Buffer.Index }
      (vt.setRtmpTag.bind VideoTrack.closeWaitFirst).bind
        fun vt => .ok (vt.publish payload)
    else
      let vt := { vt with GOP := (vt.Buffer.Index + 256 - vt.FirstScreen) % 256 }
      let vt := { vt with FirstScreen := vt.Buffer.Index }
      .ok (vt.publish payload)
  else if nalType = NALU_Non_IDR_Picture then
    .ok (vt.publish payload)
  else
    .ok vt

/-- The function `VideoTrack.Push` on a payload with the bytes `spare` behind
it in its backing array.  `fuel` bounds the depth of nested calls. -/
def VideoTrack.PushSlice :
    Nat → VideoTrack → Nat → List Nat → List Nat → Outcome VideoTrack
  | 0, _, _, _, _ => .outOfFuel
  | _ + 1, vt, _, [], _ => .ok vt
  | fuel + 1, vt, timestamp, b0 :: rest, spare =>
    let payload := b0 :: rest
    let nalType := b0 &&& naluTypeBitmask
    let vt := vt.stamp timestamp b0
    if nalType = NALU_STAPA then
      stapaLoop (fun v p s => VideoTrack.PushSlice fuel v timestamp p s) payload spare
        payload.length stapaHeaderSize vt
    else if nalType = NALU_FUA then
      match rest with
      | [] => .ok vt
      | b1 :: _ =>
        let accumulated :=
          if b1 &&& fuaStartBitmask ≠ 0 then
            let naluRefIdc := b0 &&& naluRefIdcBitmask
            let fragmentedNaluType := b1 &&& naluTypeBitmask
            ([] ++ payload).set (fuaHeaderSize - 1) (naluRefIdc ||| fragmentedNaluType)
          else
            vt.Buffer.Current.Payload ++ payload.drop fuaHeaderSize
        let vt := vt.setPayload accumulated
        if b1 &&& fuaEndBitmask ≠ 0 then
          -- video.Payload[fuaHeaderSize-1:]
          if accumulated.length < fuaHeaderSize - 1 then .panic .sliceOutOfRange
          else VideoTrack.PushSlice fuel vt timestamp (accumulated.drop (fuaHeaderSize - 1)) []
        else .ok vt
    else
      vt.pushDirect nalType payload spare

/-- The function `VideoTrack.Push` called with a payload whose capacity is its
length. -/
def VideoTrack.Push (fuel : Nat) (vt : VideoTrack) (timestamp : Nat) (payload : List Nat) :
    Outcome VideoTrack :=
  VideoTrack.PushSlice fuel vt timestamp payload []

/-- Runs `Push` over a list of `(timestamp, payload)` packets in order. -/
def VideoTrack.pushAll (fuel : Nat) : VideoTrack → List (Nat × List Nat) → Outcome VideoTrack
  | vt, [] => .ok vt
  | vt, (ts, payload) :: more =>
    (VideoTrack.Push fuel vt ts payload).bind fun vt1 => VideoTrack.pushAll fuel vt1 more

/-- A track with Go zero values in every field and the ring at index 0. -/
def VideoTrack.zero : VideoTrack :=
  { FirstScreen := 0
    Buffer := { Index := 0, buffer := fun _ => { Timestamp := 0, Payload := [], NalType := 0, Sequence := 0 } }
    PacketCount := 0
    bytes := 0
    SPS := []
    SPSSpare := []
    PPS := []
    SPSInfo := []
    GOP := 0
    RtmpTag := none
    WaitFirst := false }

/-! ## `VideoTrack.Play` -/

/-- The two closures `send` and `drop` that `action` ranges over. -/
inductive Action where
  | send
  | drop
  deriving DecidableEq, Repr

/-- Local state of one `Play` call: the cursor of its sub-ring, the current
`action`, the counter `droped`, and the packs handed to `callback` so far. -/
structure Reader where
  Index : Nat
  action : Action
  droped : Nat
  delivered : List VideoPack
  deriving DecidableEq, Repr

/-- State of `Play` after `<-vt.WaitFirst` and `SubRing(vt.FirstScreen)`;
`none` while `WaitFirst` is still open (the call is blocked). -/
def VideoTrack.playStart (vt : VideoTrack) : Option Reader :=
  if vt.WaitFirst then
    some { Index := vt.FirstScreen, action := .send, droped := 0, delivered := [] }
  else none

/-- The closure `drop` (lines 125-131). -/
def Reader.drop (vt : VideoTrack) (r : Reader) : Reader :=
  if (vt.Buffer.buffer r.Index).NalType = NALU_IDR_Picture then
    { r with action := .send }
  else
    { r with droped := r.droped + 1 }

/-- The closure `send` (lines 132-140); the lag is byte arithmetic. -/
def Reader.send (vt : VideoTrack) (r : Reader) : Reader :=
  let r := { r with delivered := r.delivered ++ [vt.Buffer.buffer r.Index] }
  let pIndex := vt.Buffer.Index
  if (pIndex + 256 - r.Index) % 256 > 128 then { r with action := .drop } else r

/-- Modelled from the spec: `NextR`, "the reader advances to the next slot";
the cooperative wait for the slot to be written is not part of the state. -/
def Reader.NextR (r : Reader) : Reader :=
  { r with Index := (r.Index + 1) % 256 }

/-- One iteration of the loop of `Play` (lines 141-148) when `ctx` is not
done: `action()` on the track state visible at that moment, then
`ring.NextR()`. -/
def Reader.step (vt : VideoTrack) (r : Reader) : Reader :=
  match r.action with
  | .send => (r.send vt).NextR
  | .drop => (r.drop vt).NextR

/-- The first pack `Play` hands to `callback` when it starts on `vt`. -/
def VideoTrack.playFirst (vt : VideoTrack) : Option VideoPack :=
  match vt.playStart with
  | none => none
  | some r => (r.step vt).delivered.head?

/-! ## `publisher-ps.go` -/

/-- Stream types of the mpegts package used by `ReceiveVideo`/`ReceiveAudio`. -/
def STREAM_TYPE_AAC : Nat := 0x0F
def STREAM_TYPE_H264 : Nat := 0x1B
def STREAM_TYPE_H265 : Nat := 0x24
def STREAM_TYPE_G711A : Nat := 0x90
def STREAM_TYPE_G711U : Nat := 0x91

/-- The type `cacheItem`: a sequence number and the pooled buffer. -/
structure cacheItem where
  Seq : Nat
  Value : List Nat
  deriving DecidableEq, Repr

/-- The type `mpegps.MpegPsEsStream` as used by the handlers; `EsType` is its
field `Type`. -/
structure MpegPsEsStream where
  EsType : Nat
  Buffer : List Nat
  PTS : Nat
  DTS : Nat
  deriving DecidableEq, Repr

/-- A unit the demultiplexer hands to the handler: `ReceiveVideo` or `ReceiveAudio`. -/
inductive EsUnit where
  | video (es : MpegPsEsStream)
  | audio (es : MpegPsEsStream)
  deriving DecidableEq, Repr

/-- The video track a publisher holds, by the constructor that made it. -/
inductive VideoCodec where
  | H264
  | H265
  deriving DecidableEq, Repr

/-- The audio track a publisher holds, by the constructor that made it:
`NewAAC` (with or without the pool argument) or `NewG711` (with its a-law flag). -/
inductive AudioCodec where
  | AAC (pool : Bool)
  | G711 (alaw : Bool)
  deriving DecidableEq, Repr

/-- Calls a publisher makes on its collaborators, in order. -/
inductive Event where
  | Debug (seq lastSeq : Nat)
  | Reset
  | SetLostFlag
  | Feed (data : List Nat)
  | Recycle (item : cacheItem)
  | WriteAnnexB (pts dts : Nat) (payload : List Nat)
  | WriteADTS (ts : Nat) (payload : List Nat)
  | WriteRaw (ts : Nat) (payload : List Nat)
  | Error (type : Nat)
  | Info (type : Nat)
  deriving DecidableEq, Repr

/-- Modelled from the spec: the Elementary Stream Demultiplexer
(`mpegps.DecPSPackage`), external to the sources: "ordered bytes →
(stream-type, payload, pts, dts) units".  `feed` yields the units handed to the
handler for the bytes fed, `reset` is its `Reset`. -/
structure Demux (D : Type) where
  feed : D → List Nat → D × List EsUnit
  reset : D → D

/-- Modelled from the spec: the Packet Reorder Buffer (`util.RTPReorder`),
external to the sources: "`push(seq, item)` → items now releasable in order;
`pop()` → next ready item".  `none` is the nil item. -/
structure Reorder (R : Type) where
  Push : R → Nat → cacheItem → Option cacheItem × R
  Pop : R → Option cacheItem × R

/-- The type `PSPublisher`: `hasStream` is `p.Stream != nil`, `poolReady` is
`p.pool != nil`; `log` records the calls made on the collaborators. -/
structure PSPublisher (D R : Type) where
  hasStream : Bool
  DisableReorder : Bool
  poolReady : Bool
  lastSeq : Nat
  VideoTrack : Option VideoCodec
  AudioTrack : Option AudioCodec
  demux : D
  reorder : R
  log : List Event
  deriving DecidableEq, Repr

/-- Appends one call to the log. -/
def PSPublisher.emit {D R : Type} (p : PSPublisher D R) (e : Event) : PSPublisher D R :=
  { p with log := p.log ++ [e] }

/-- Modelled from the spec: `codec.H264NALUType.Parse`, which reads the
"video-unit-type code" of a header byte, its low five bits. -/
def H264NALUType.Parse (b : Nat) : Nat := b &&& 0x1F

/-- The function `PSPublisher.ReceiveVideo`. -/
def PSPublisher.ReceiveVideo {D R : Type} (p : PSPublisher D R) (es : MpegPsEsStream) :
    Outcome (PSPublisher D R) :=
  let created : Outcome (PSPublisher D R) :=
    if p.VideoTrack = none then
      if es.EsType = STREAM_TYPE_H264 then
        .ok { p with VideoTrack := some .H264 }
      else if es.EsType = STREAM_TYPE_H265 then
        .ok { p with VideoTrack := some .H265 }
      else
        match es.Buffer.get? 4 with
        | none => .panic .indexOutOfRange
        | some b =>
          let maybe264 := H264NALUType.Parse b
          if maybe264 = NALU_Non_IDR_Picture ∨ maybe264 = NALU_IDR_Picture ∨
              maybe264 = NALU_SEI ∨ maybe264 = NALU_SPS ∨ maybe264 = NALU_PPS ∨
              maybe264 = NALU_Access_Unit_Delimiter then
            .ok { p with VideoTrack := some .H264 }
          else
            .ok { (p.emit (.Info maybe264)) with VideoTrack := some .H265 }
    else .ok p
  created.bind fun p =>
    let payload := es.Buffer
    let pts := es.PTS
    let dts := if es.DTS = 0 then pts else es.DTS
    .ok (p.emit (.WriteAnnexB pts dts payload))

/-- The function `PSPublisher.ReceiveAudio`. -/
def PSPublisher.ReceiveAudio {D R : Type} (p : PSPublisher D R) (es : MpegPsEsStream) :
    Outcome (PSPublisher D R) :=
  let ts := es.PTS
  let payload := es.Buffer
  if p.AudioTrack = none then
    if es.EsType = STREAM_TYPE_G711A then
      .ok { p with AudioTrack := some (.G711 true) }
    else if es.EsType = STREAM_TYPE_G711U then
      .ok { p with AudioTrack := some (.G711 false) }
    else if es.EsType = STREAM_TYPE_AAC then
      .ok ({ p with AudioTrack := some (.AAC true) }.emit (.WriteADTS ts payload))
    else if es.EsType = 0 then
      match payload.get? 0 with
      | none => .panic .indexOutOfRange
      | some b0 =>
        if b0 = 0xff then
          match payload.get? 1 with
          | none => .panic .indexOutOfRange
          | some b1 =>
            if b1 >>> 4 = 0xf then
              .ok ({ p with AudioTrack := some (.AAC false) }.emit (.WriteADTS ts payload))
            else .ok p
        else .ok p
    else
      .ok (p.emit (.Error es.EsType))
  else if es.EsType = STREAM_TYPE_AAC then
    .ok (p.emit (.WriteADTS ts payload))
  else
    .ok (p.emit (.WriteRaw ts payload))

/-- The handler calls `Feed` makes for the units found, in order. -/
def PSPublisher.handle {D R : Type} : List EsUnit → PSPublisher D R → Outcome (PSPublisher D R)
  | [], p => .ok p
  | .video es :: more, p => (p.ReceiveVideo es).bind (PSPublisher.handle more)
  | .audio es :: more, p => (p.ReceiveAudio es).bind (PSPublisher.handle more)

/-- The call `p.Feed(data)`: the demultiplexer consumes the bytes and calls
back the handler, which `PushPS` set to the publisher itself. -/
def PSPublisher.Feed {D R : Type} (dm : Demux D) (p : PSPublisher D R) (data : List Nat) :
    Outcome (PSPublisher D R) :=
  let fed := dm.feed p.demux data
  PSPublisher.handle fed.2 ({ p with demux := fed.1 }.emit (.Feed data))

/-- The gap check of the loop body (lines 53-59); sequence numbers are `uint16`. -/
def PSPublisher.checkGap {D R : Type} (dm : Demux D) (p : PSPublisher D R) (rtpPacket : cacheItem) :
    PSPublisher D R :=
  if rtpPacket.Seq ≠ (p.lastSeq + 1) % 65536 then
    let p := p.emit (.Debug rtpPacket.Seq p.lastSeq)
    let p := { p with demux := dm.reset p.demux }.emit .Reset
    if p.VideoTrack ≠ none then p.emit .SetLostFlag else p
  else p

/-- The body of the release loop of `PushPS` (lines 53-62) for one released item. -/
def PSPublisher.onReleased {D R : Type} (dm : Demux D) (p : PSPublisher D R)
    (rtpPacket : cacheItem) : Outcome (PSPublisher D R) :=
  (PSPublisher.Feed dm (p.checkGap dm rtpPacket) rtpPacket.Value).bind fun p =>
    .ok ({ p with lastSeq := rtpPacket.Seq }.emit (.Recycle rtpPacket))

/-- The release loop of `PushPS` (line 52): starts from the result of
`reorder.Push` and continues with `reorder.Pop()` until it returns nil.
`fuel` bounds the number of iterations. -/
def PSPublisher.releaseLoop {D R : Type} (dm : Demux D) (ro : Reorder R) :
    Nat → Option cacheItem → PSPublisher D R → Outcome (PSPublisher D R)
  | _, none, p => .ok p
  | 0, some _, _ => .outOfFuel
  | fuel + 1, some rtpPacket, p =>
    (p.onReleased dm rtpPacket).bind fun p =>
      let popped := ro.Pop p.reorder
      PSPublisher.releaseLoop dm ro fuel popped.1 { p with reorder := popped.2 }

/-- An RTP packet as `PushPS` reads it. -/
structure Packet where
  SequenceNumber : Nat
  Payload : List Nat
  deriving DecidableEq, Repr

/-- The function `PSPublisher.PushPS`. -/
def PSPublisher.PushPS {D R : Type} (dm : Demux D) (ro : Reorder R) (fuel : Nat)
    (p : PSPublisher D R) (rtp : Packet) : Outcome (PSPublisher D R) :=
  if ¬ p.hasStream then .ok p
  else
    let p :=
      if ¬ p.poolReady then
        { p with lastSeq := (rtp.SequenceNumber + 65536 - 1) % 65536, poolReady := true }
      else p
    if p.DisableReorder then
      (PSPublisher.Feed dm p rtp.Payload).bind fun p =>
        .ok { p with lastSeq := rtp.SequenceNumber }
    else
      let item : cacheItem := { Seq := rtp.SequenceNumber, Value := rtp.Payload }
      let pushed := ro.Push p.reorder rtp.SequenceNumber item
      PSPublisher.releaseLoop dm ro fuel pushed.1 { p with reorder := pushed.2 }

/-! ## `http.go` -/

def NO_SUCH_CONIFG : String := "no such config"
def NO_SUCH_STREAM : String := "no such stream"

/-- Status codes of `net/http` used by the handlers. -/
def StatusBadRequest : Nat := 400
def StatusNotFound : Nat := 404
def StatusInternalServerError : Nat := 500

/-- The type `config.Config`, a map from names to values. -/
abbrev Config : Type := List (String × String)

/-- The fields of `Plugin` that the config handlers read; the type is declared
outside the sources. -/
structure Plugin where
  Name : String
  Yaml : String
  modifiedYaml : String
  RawConfig : Config
  Modified : Config
  deriving DecidableEq, Repr

/-- What a handler does to the response writer and to a plugin, in order. -/
inductive HttpEvent where
  | Error (msg : String) (code : Nat)
  | Write (body : String)
  | EncodeConfig (cfg : Config)
  | EncodeYamlView (file modified merged : String)
  | Save (plugin : String)
  | Assign (plugin : String) (modified : Config)
  | Update (plugin : String) (modified : Config)
  deriving DecidableEq, Repr

/-- The query and body of a request: `name` is `q.Get("name")` (empty when the
parameter is absent) and `hasYaml` is `q.Has("yaml")`. -/
structure Request where
  name : String
  hasYaml : Bool
  Body : String
  deriving DecidableEq, Repr

/-- The package-level state and the external codecs the handlers use: the map
`Plugins`, the plugin `Engine`, `yaml.Marshal` (none on error), the error of
the JSON encoder (none on success) and the two decoders of a request body. -/
structure Api where
  Plugins : List (String × Plugin)
  Engine : Plugin
  yamlMarshal : Config → Option String
  jsonEncodeErr : Config → Option String
  yamlDecode : String → Except String Config
  jsonDecode : String → Except String Config

/-- The lookup that opens `API_getConfig`, `API_modifyConfig` and
`API_updateConfig` (lines 74-84, 104-115, 132-142): the pointer `p`, nil as
`none`, and what was written to the response. -/
def Api.selectPlugin (api : Api) (r : Request) : Option Plugin × List HttpEvent :=
  if r.name ≠ "" then
    match api.Plugins.lookup r.name with
    | some c => (some c, [])
    | none => (none, [.Error NO_SUCH_CONIFG StatusNotFound])
  else (some api.Engine, [])

/-- The function `API_getConfig`; the result lists what was written. -/
def Api.API_getConfig (api : Api) (r : Request) : Outcome (List HttpEvent) :=
  let sel := api.selectPlugin r
  if r.hasYaml then
    -- p.RawConfig
    match sel.1 with
    | none => .panic .nilPointerDereference
    | some p =>
      let mm := match api.yamlMarshal p.RawConfig with
        | some s => s
        | none => ""
      .ok (sel.2 ++ [.EncodeYamlView p.Yaml p.modifiedYaml mm])
  else
    -- p.RawConfig
    match sel.1 with
    | none => .panic .nilPointerDereference
    | some p =>
      match api.jsonEncodeErr p.RawConfig with
      | none => .ok (sel.2 ++ [.EncodeConfig p.RawConfig])
      | some err => .ok (sel.2 ++ [.EncodeConfig p.RawConfig, .Error err StatusInternalServerError])

/-- The function `API_modifyConfig`. -/
def Api.API_modifyConfig (api : Api) (r : Request) : Outcome (List HttpEvent) :=
  let sel := api.selectPlugin r
  -- &p.Modified
  match sel.1 with
  | none => .panic .nilPointerDereference
  | some p =>
    let decoded := if r.hasYaml then api.yamlDecode r.Body else api.jsonDecode r.Body
    match decoded with
    | .error err => .ok (sel.2 ++ [.Error err StatusBadRequest])
    | .ok modified =>
      .ok (sel.2 ++ [.Save p.Name, .Assign p.Name modified, .Write "ok"])

/-- The function `API_updateConfig`. -/
def Api.API_updateConfig (api : Api) (r : Request) : Outcome (List HttpEvent) :=
  let sel := api.selectPlugin r
  -- p.Modified
  match sel.1 with
  | none => .panic .nilPointerDereference
  | some p => .ok (sel.2 ++ [.Update p.Name p.Modified, .Write "ok"])

/-- An API state with the single plugin `rtmp`. -/
def demoApi : Api :=
  { Plugins := [("rtmp", { Name := "rtmp", Yaml := "", modifiedYaml := "", RawConfig := [],
                           Modified := [] })]
    Engine := { Name := "engine", Yaml := "", modifiedYaml := "", RawConfig := [], Modified := [] }
    yamlMarshal := fun _ => some ""
    jsonEncodeErr := fun _ => none
    yamlDecode := fun _ => .ok []
    jsonDecode := fun _ => .ok [] }

/-! ## Predicates used to state the properties -/

/-- An outcome as an option: `some` for a normal return. -/
def Outcome.toOption {α : Type} : Outcome α → Option α
  | .ok a => some a
  | .panic _ => none
  | .outOfFuel => none

/-- Sequence number recorded in the slot at `FirstScreen`. -/
def VideoTrack.keySeq (vt : VideoTrack) : Nat :=
  (vt.Buffer.buffer vt.FirstScreen).Sequence

/-- The slot at `FirstScreen` holds a key picture that was published at most
255 units ago, and the write index is that many slots past it. -/
def Anchored (vt : VideoTrack) : Prop :=
  vt.WaitFirst = true ∧ vt.RtmpTag ≠ none ∧ vt.FirstScreen < 256 ∧
  (vt.Buffer.buffer vt.FirstScreen).NalType = NALU_IDR_Picture ∧
  vt.keySeq < vt.PacketCount ∧ vt.PacketCount - vt.keySeq ≤ 255 ∧
  vt.Buffer.Index = (vt.FirstScreen + (vt.PacketCount - vt.keySeq)) % 256

/-- Relation between a track before and after some pushes: the packet count
does not decrease, and an anchored key frame stays anchored (possibly replaced
by a later one) as long as the count stays within 255 of it. -/
def Keeps (v w : VideoTrack) : Prop :=
  v.PacketCount ≤ w.PacketCount ∧
  (Anchored v → w.PacketCount - v.keySeq ≤ 255 → Anchored w ∧ v.keySeq ≤ w.keySeq)

/-- The scenario of the spec: parameter sets, one key frame, 300 non-key frames. -/
def keyThen300 : List (Nat × List Nat) :=
  [(0, [0x67, 0x42, 0x00, 0x1E]), (0, [0x68, 0xCE]), (0, [0x65, 0x88])] ++
    List.replicate 300 (40, [0x41, 0x9A])

/-- The returned value of an outcome, or the default when there is none. -/
def Outcome.getD {α : Type} (o : Outcome α) (d : α) : α :=
  match o with
  | .ok a => a
  | .panic _ => d
  | .outOfFuel => d

/-- A track that has received a sequence and a picture parameter set. -/
def trackWithParams : VideoTrack :=
  (VideoTrack.pushAll 1 VideoTrack.zero
    [(0, [0x67, 0x42, 0x00, 0x1E]), (0, [0x68, 0xCE])]).getD VideoTrack.zero

/-- The track `trackWithParams` after one key picture. -/
def trackAfterKey : VideoTrack :=
  (VideoTrack.Push 1 trackWithParams 0 [0x65, 0x88]).getD VideoTrack.zero

/-- The track `trackAfterKey` after two further non-key pictures. -/
def trackAfterKeyAndTwo : VideoTrack :=
  (VideoTrack.pushAll 1 trackAfterKey [(40, [0x41, 0x9A]), (80, [0x41, 0x9B])]).getD
    VideoTrack.zero

/-- A track on which a second key picture sits at slot 2: parameter sets, key,
non-key, key, non-key. -/
def trackTwoKeys : VideoTrack :=
  (VideoTrack.pushAll 1 trackWithParams
    [(0, [0x65, 0x88]), (40, [0x41, 0x9A]), (80, [0x65, 0x89]), (120, [0x41, 0x9B])]).getD
    VideoTrack.zero

/-- A reader of `trackTwoKeys` in the dropping state whose current slot is the
key picture at slot 2. -/
def droppingReader : Reader :=
  { Index := 2, action := .drop, droped := 7, delivered := [] }

/-- Indicator byte of a fragment of a unit with header `h`: the header's top
three bits with type 28. -/
def fuaIndicator (h : Nat) : Nat := (h &&& 0xE0) ||| NALU_FUA

/-- Start fragment of a unit with header `h`: start bit and the unit's type. -/
def fuaStart (h : Nat) (body : List Nat) : List Nat :=
  fuaIndicator h :: (fuaStartBitmask ||| (h &&& naluTypeBitmask)) :: body

/-- Middle fragment of a unit with header `h`: neither start nor end bit. -/
def fuaMiddle (h : Nat) (body : List Nat) : List Nat :=
  fuaIndicator h :: (h &&& naluTypeBitmask) :: body

/-- End fragment of a unit with header `h`: end bit and the unit's type. -/
def fuaEnd (h : Nat) (body : List Nat) : List Nat :=
  fuaIndicator h :: (fuaEndBitmask ||| (h &&& naluTypeBitmask)) :: body

/-- A length as two bytes, big-endian. -/
def bigEndian16 (n : Nat) : List Nat := [n / 256 % 256, n % 256]

/-- The aggregated payload of two units: a header byte, then each unit
prefixed by its length as two big-endian bytes. -/
def stapaOfTwo (hdr : Nat) (a b : List Nat) : List Nat :=
  hdr :: (bigEndian16 a.length ++ a ++ (bigEndian16 b.length ++ b))

/-- A demultiplexer that finds no unit; `reset` clears its state. -/
def idleDemux : Demux Nat :=
  { feed := fun d data => (d + data.length, []), reset := fun _ => 0 }

/-- A publisher with a stream and a video track, last sequence 10. -/
def publisherAtTen : PSPublisher Nat Unit :=
  { hasStream := true, DisableReorder := false, poolReady := true, lastSeq := 10,
    VideoTrack := some .H264, AudioTrack := none, demux := 5, reorder := (), log := [] }

/-- The first-frame signal and the sequence header go together: `WaitFirst`
is closed exactly when `RtmpTag` is non-nil. -/
def SignalInv (vt : VideoTrack) : Prop :=
  vt.WaitFirst = true ↔ vt.RtmpTag ≠ none

/-- What an outcome of pushes on `vt` must satisfy for the signal to fire at
most once: a normal return keeps `SignalInv` and, when the signal had fired,
leaves `RtmpTag` as it was and `WaitFirst` closed; a panic is never the close
of a closed channel. -/
def FiresOnce (vt : VideoTrack) (o : Outcome VideoTrack) : Prop :=
  match o with
  | .ok w => SignalInv w ∧ (vt.RtmpTag ≠ none → w.RtmpTag = vt.RtmpTag ∧ w.WaitFirst = true)
  | .panic k => k ≠ .closeOfClosedChannel
  | .outOfFuel => True

/-- A key picture, a non-key picture and a second key picture. -/
def keyNonKeyKey : List (Nat × List Nat) :=
  [(0, [0x65, 0x88]), (40, [0x41, 0x9A]), (80, [0x65, 0x89])]

/-- The track `trackWithParams` after `keyNonKeyKey`. -/
def trackAfterTwoKeys : VideoTrack :=
  (VideoTrack.pushAll 1 trackWithParams keyNonKeyKey).getD VideoTrack.zero

/-- The track `trackAfterKey` after one non-key picture. -/
def trackAfterKeyAndOne : VideoTrack :=
  (VideoTrack.Push 1 trackAfterKey 40 [0x41, 0x9A]).getD VideoTrack.zero

/-- A publisher with a stream and no track yet. -/
def freshPublisher : PSPublisher Nat Unit :=
  { hasStream := true, DisableReorder := false, poolReady := true, lastSeq := 0,
    VideoTrack := none, AudioTrack := none, demux := 0, reorder := (), log := [] }

/-- An untagged audio unit whose payload starts with the ADTS sync pattern. -/
def untaggedAdts (pts : Nat) : MpegPsEsStream :=
  { EsType := 0, Buffer := [0xFF, 0xF1, 0x50, 0x80], PTS := pts, DTS := 0 }

/-- The publisher `freshPublisher` after its first untagged ADTS unit: an AAC
track created by sniffing. -/
def sniffedPublisher : PSPublisher Nat Unit :=
  (freshPublisher.ReceiveAudio (untaggedAdts 100)).getD freshPublisher

/-- Several iterations of the loop of `Play`, one per snapshot of the track
(the writer may have moved between iterations). -/
def Reader.run (r : Reader) : List VideoTrack → Reader
  | [] => r
  | vt :: more => (r.step vt).run more

/-- A track whose writer is at index 200 and whose slots are non-key pictures
except slot 12, a key picture. -/
def laggedTrack : VideoTrack :=
  { VideoTrack.zero with
    Buffer :=
      { Index := 200
        buffer := fun i =>
          if i = 12 then { Timestamp := 480, Payload := [0x65, 0x88], NalType := 5, Sequence := 12 }
          else { Timestamp := 40 * i, Payload := [0x41, 0x9A], NalType := 1, Sequence := i } }
    WaitFirst := true }

/-- A sending reader of `laggedTrack` at slot 9. -/
def laggedReader : Reader :=
  { Index := 9, action := .send, droped := 0, delivered := [] }

/-- A track that has received only a two-byte sequence parameter set. -/
def trackWithShortSPS : VideoTrack :=
  (VideoTrack.Push 1 VideoTrack.zero 0 [0x67, 0x42]).getD VideoTrack.zero

/-- The items the release loop of `PushPS` iterates over: the result of
`reorder.Push` and of each following `Pop` until one is nil, at most `fuel`
of them. -/
def Reorder.drain {R : Type} (ro : Reorder R) : Nat → Option cacheItem → R → List cacheItem
  | _, none, _ => []
  | 0, some _, _ => []
  | fuel + 1, some item, r => item :: ro.drain fuel (ro.Pop r).1 (ro.Pop r).2

/-- Whether a logged call is `Feed` or `Recycle`. -/
def Event.isFeedOrRecycle : Event → Bool
  | .Feed _ => true
  | .Recycle _ => true
  | _ => false

/-- A reorder buffer that releases the pushed item at once and then the items
it holds, in order. -/
def queueReorder : Reorder (List cacheItem) :=
  { Push := fun r _ item => (some item, r), Pop := fun r => (r.head?, r.tail) }

/-- A publisher whose reorder buffer holds the item with sequence 12. -/
def queuedPublisher : PSPublisher Nat (List cacheItem) :=
  { hasStream := true, DisableReorder := false, poolReady := true, lastSeq := 10,
    VideoTrack := none, AudioTrack := none, demux := 0,
    reorder := [{ Seq := 12, Value := [7, 8] }], log := [] }

/-- The sequence header as the claim words it: `head` with its bytes 6..8
replaced by `sps[1..3]`, then `0xE1`, the length of `sps` as two big-endian
bytes, `sps`, `0x01`, the length of `pps` as two big-endian bytes and `pps`. -/
def rtmpTagLayout (head sps pps : List Nat) : List Nat :=
  head.take 6 ++ (sps.drop 1).take 3 ++ head.drop 9 ++
    [0xE1, sps.length / 256, sps.length % 256] ++ sps ++
    [0x01, pps.length / 256, pps.length % 256] ++ pps

/-! ## Basic facts about the ring and outcomes -/

@[simp] theorem Ring.Current_setCurrent (r : Ring) (v : VideoPack) :
    (r.setCurrent v).Current = v := by
  simp [Ring.Current, Ring.setCurrent]

@[simp] theorem Ring.Index_setCurrent (r : Ring) (v : VideoPack) :
    (r.setCurrent v).Index = r.Index := rfl

@[simp] theorem Ring.setCurrent_setCurrent (r : Ring) (v w : VideoPack) :
    (r.setCurrent v).setCurrent w = r.setCurrent w := by
  simp [Ring.setCurrent]

@[simp] theorem VideoTrack.Current_withCurrent (vt : VideoTrack) (v : VideoPack) :
    (vt.withCurrent v).Buffer.Current = v := by
  simp [VideoTrack.withCurrent]

@[simp] theorem VideoTrack.withCurrent_withCurrent (vt : VideoTrack) (v w : VideoPack) :
    (vt.withCurrent v).withCurrent w = vt.withCurrent w := by
  simp [VideoTrack.withCurrent]

@[simp] theorem VideoTrack.Index_withCurrent (vt : VideoTrack) (v : VideoPack) :
    (vt.withCurrent v).Buffer.Index = vt.Buffer.Index := rfl

@[simp] theorem VideoTrack.PacketCount_withCurrent (vt : VideoTrack) (v : VideoPack) :
    (vt.withCurrent v).PacketCount = vt.PacketCount := rfl

@[simp] theorem VideoTrack.RtmpTag_withCurrent (vt : VideoTrack) (v : VideoPack) :
    (vt.withCurrent v).RtmpTag = vt.RtmpTag := rfl

@[simp] theorem VideoTrack.FirstScreen_withCurrent (vt : VideoTrack) (v : VideoPack) :
    (vt.withCurrent v).FirstScreen = vt.FirstScreen := rfl

@[simp] theorem VideoTrack.GOP_withCurrent (vt : VideoTrack) (v : VideoPack) :
    (vt.withCurrent v).GOP = vt.GOP := rfl

@[simp] theorem VideoTrack.WaitFirst_withCurrent (vt : VideoTrack) (v : VideoPack) :
    (vt.withCurrent v).WaitFirst = vt.WaitFirst := rfl

@[simp] theorem VideoTrack.SPS_withCurrent (vt : VideoTrack) (v : VideoPack) :
    (vt.withCurrent v).SPS = vt.SPS := rfl

@[simp] theorem VideoTrack.PPS_withCurrent (vt : VideoTrack) (v : VideoPack) :
    (vt.withCurrent v).PPS = vt.PPS := rfl

/-- The opening writes followed by a payload write fix the whole current slot. -/
theorem VideoTrack.stamp_setPayload (vt : VideoTrack) (ts b0 : Nat) (p : List Nat) :
    (vt.stamp ts b0).setPayload p = vt.withCurrent
      { Timestamp := ts, Payload := p, NalType := b0 &&& naluTypeBitmask,
        Sequence := vt.PacketCount } := by
  simp [VideoTrack.stamp, VideoTrack.setPayload]

/-! ## C1: a nested fragment makes `Push` recurse without end -/

/-- Once the accumulated unit is `[0x1C, 0x1C, 0x40]`, the call on its tail
`[0x1C, 0x40]` (type 28, end bit, no start bit, empty body) appends nothing and
calls itself on the same tail again. -/
theorem Push_fua_tail_loops (ts : Nat) : ∀ (fuel : Nat) (vt : VideoTrack),
    vt.Buffer.Current.Payload = [0x1C, 0x1C, 0x40] →
    VideoTrack.Push fuel vt ts [0x1C, 0x40] = Outcome.outOfFuel := by
  intro fuel
  induction fuel with
  | zero => intro vt _; rfl
  | succ n ih =>
    intro vt h
    simp only [VideoTrack.Push] at ih ⊢
    rw [VideoTrack.PushSlice]
    simp +decide [naluTypeBitmask, NALU_STAPA, NALU_FUA, fuaStartBitmask, fuaEndBitmask,
      fuaHeaderSize, VideoTrack.stamp, VideoTrack.setPayload, h]
    apply ih
    simp

/-- C1 (fails on the code): the single payload `[0x1C, 0xDC, 0x40]`, a type-28
fragment with start and end bits whose fragmented type is again 28, makes
`Push` exhaust every amount of fuel from every track state: the recursion
never reaches a non-recursive case. -/
theorem Push_nested_fua_never_returns (fuel : Nat) (vt : VideoTrack) (ts : Nat) :
    VideoTrack.Push fuel vt ts [0x1C, 0xDC, 0x40] = Outcome.outOfFuel := by
  cases fuel with
  | zero => rfl
  | succ n =>
    rw [VideoTrack.Push, VideoTrack.PushSlice]
    simp +decide [naluTypeBitmask, NALU_STAPA, NALU_FUA, fuaStartBitmask, fuaEndBitmask,
      fuaHeaderSize, naluRefIdcBitmask, VideoTrack.stamp, VideoTrack.setPayload]
    apply Push_fua_tail_loops
    simp +decide

/-! ## C2: what `Play` delivers first -/

theorem Keeps.refl (v : VideoTrack) : Keeps v v := by
  refine ⟨le_refl _, fun h _ => ⟨h, le_refl _⟩⟩

theorem Keeps.trans {a b c : VideoTrack} (h1 : Keeps a b) (h2 : Keeps b c) : Keeps a c := by
  obtain ⟨m1, k1⟩ := h1
  obtain ⟨m2, k2⟩ := h2
  refine ⟨le_trans m1 m2, fun ha hb => ?_⟩
  obtain ⟨hb1, hb2⟩ := k1 ha (by omega)
  obtain ⟨hc1, hc2⟩ := k2 hb1 (by omega)
  exact ⟨hc1, le_trans hb2 hc2⟩

theorem Anchored.index_ne {vt : VideoTrack} (h : Anchored vt) :
    vt.Buffer.Index ≠ vt.FirstScreen := by
  obtain ⟨_, _, h3, _, h5, h6, h7⟩ := h
  omega

theorem Keeps_setCurrent (vt : VideoTrack) (v : VideoPack) :
    Keeps vt { vt with Buffer := vt.Buffer.setCurrent v } := by
  refine ⟨le_refl _, fun h _ => ?_⟩
  have hne := h.index_ne
  have hb : Function.update vt.Buffer.buffer vt.Buffer.Index v vt.FirstScreen
      = vt.Buffer.buffer vt.FirstScreen := Function.update_noteq (Ne.symm hne) _ _
  obtain ⟨h1, h2, h3, h4, h5, h6, h7⟩ := h
  simp only [Anchored, VideoTrack.keySeq, Ring.setCurrent, hb] at *
  exact ⟨⟨h1, h2, h3, h4, h5, h6, h7⟩, le_refl _⟩

theorem Keeps_stamp (vt : VideoTrack) (ts b0 : Nat) : Keeps vt (vt.stamp ts b0) :=
  Keeps_setCurrent vt _

theorem Keeps_setPayload (vt : VideoTrack) (p : List Nat) : Keeps vt (vt.setPayload p) :=
  Keeps_setCurrent vt _

theorem Keeps_publish (vt : VideoTrack) (p : List Nat) : Keeps vt (vt.publish p) := by
  refine ⟨by simp [VideoTrack.publish, VideoTrack.GetBPS, VideoTrack.setPayload], fun h hb => ?_⟩
  have hne := h.index_ne
  have hb2 : Function.update vt.Buffer.buffer vt.Buffer.Index
      { vt.Buffer.Current with Payload := p } vt.FirstScreen
      = vt.Buffer.buffer vt.FirstScreen := Function.update_noteq (Ne.symm hne) _ _
  obtain ⟨h1, h2, h3, h4, h5, h6, h7⟩ := h
  simp only [Anchored, VideoTrack.keySeq, VideoTrack.publish, VideoTrack.GetBPS,
    VideoTrack.setPayload, VideoTrack.withCurrent, Ring.setCurrent, Ring.NextW, hb2] at *
  refine ⟨⟨h1, h2, h3, h4, by omega, hb, by omega⟩, le_refl _⟩

theorem Anchored.sameFields {w u : VideoTrack} (h : Anchored w) (h1 : u.WaitFirst = w.WaitFirst)
    (h2 : u.RtmpTag = w.RtmpTag) (h3 : u.FirstScreen = w.FirstScreen)
    (h4 : u.Buffer = w.Buffer) (h5 : u.PacketCount = w.PacketCount) : Anchored u := by
  simpa only [Anchored, VideoTrack.keySeq, h1, h2, h3, h4, h5] using h

theorem Keeps.sameTrack {v w u : VideoTrack} (h : Keeps v w) (h1 : u.WaitFirst = w.WaitFirst)
    (h2 : u.RtmpTag = w.RtmpTag) (h3 : u.FirstScreen = w.FirstScreen)
    (h4 : u.Buffer = w.Buffer) (h5 : u.PacketCount = w.PacketCount) : Keeps v u := by
  obtain ⟨m, k⟩ := h
  refine ⟨by omega, fun ha hb => ?_⟩
  obtain ⟨hw, hs⟩ := k ha (by omega)
  refine ⟨hw.sameFields h1 h2 h3 h4 h5, ?_⟩
  simpa only [VideoTrack.keySeq, h3, h4] using hs

/-- What a successful key-picture case leaves behind: the slot at the old
write index holds the key picture with the old packet count as sequence, the
index and the count have advanced by one, and the first-frame signal is set. -/
theorem pushDirect_idr {vt w : VideoTrack} {ts b0 : Nat} {payload spare : List Nat}
    (h5 : b0 &&& naluTypeBitmask = NALU_IDR_Picture)
    (hw : vt.RtmpTag ≠ none → vt.WaitFirst = true)
    (h : (vt.stamp ts b0).pushDirect NALU_IDR_Picture payload spare = .ok w) :
    w.FirstScreen = vt.Buffer.Index ∧ w.PacketCount = vt.PacketCount + 1 ∧
    w.Buffer.Index = (vt.Buffer.Index + 1) % 256 ∧
    w.Buffer.buffer vt.Buffer.Index =
      { Timestamp := ts, Payload := payload, NalType := NALU_IDR_Picture,
        Sequence := vt.PacketCount } ∧
    w.RtmpTag ≠ none ∧ w.WaitFirst = true := by
  simp only [VideoTrack.pushDirect, NALU_SPS, NALU_PPS, NALU_Access_Unit_Delimiter,
    NALU_IDR_Picture] at h
  simp only [Nat.reduceEqDiff, if_false, if_true] at h
  by_cases hr : vt.RtmpTag = none
  · have hr2 : (vt.stamp ts b0).RtmpTag = none := hr
    simp only [hr2, if_true, VideoTrack.setRtmpTag, VideoTrack.setRtmpTagWith] at h
    split_ifs at h with c1 c2
    · simp [Outcome.bind] at h
    · simp [Outcome.bind] at h
    · simp only [Outcome.bind, VideoTrack.closeWaitFirst] at h
      split_ifs at h with c3
      simp only [Outcome.ok.injEq] at h
      subst h
      simp [VideoTrack.publish, VideoTrack.GetBPS, VideoTrack.setPayload, VideoTrack.stamp,
        VideoTrack.withCurrent, Ring.setCurrent, Ring.NextW, Ring.Current, h5]
  · have hr2 : ¬ (vt.stamp ts b0).RtmpTag = none := hr
    simp only [hr2, if_false, Outcome.ok.injEq] at h
    subst h
    simp [VideoTrack.publish, VideoTrack.GetBPS, VideoTrack.setPayload, VideoTrack.stamp,
      VideoTrack.withCurrent, Ring.setCurrent, Ring.NextW, Ring.Current, h5, hr, hw hr]

theorem anchored_of_idr {vt w : VideoTrack} {ts b0 : Nat} {payload spare : List Nat}
    (h5 : b0 &&& naluTypeBitmask = NALU_IDR_Picture)
    (hw : vt.RtmpTag ≠ none → vt.WaitFirst = true) (hi : vt.Buffer.Index < 256)
    (h : (vt.stamp ts b0).pushDirect NALU_IDR_Picture payload spare = .ok w) :
    Anchored w ∧ w.keySeq = vt.PacketCount := by
  obtain ⟨a1, a2, a3, a4, a5, a6⟩ := pushDirect_idr h5 hw h
  have hk : w.keySeq = vt.PacketCount := by simp [VideoTrack.keySeq, a1, a4]
  refine ⟨⟨a6, a5, by omega, by simp [a1, a4], by omega, by omega, ?_⟩, hk⟩
  rw [a3, a1, hk, a2]
  omega

theorem pushDirect_keeps {vt w : VideoTrack} {ts b0 : Nat} {payload spare : List Nat}
    (h : (vt.stamp ts b0).pushDirect (b0 &&& naluTypeBitmask) payload spare = .ok w) :
    Keeps vt w := by
  by_cases h5 : b0 &&& naluTypeBitmask = NALU_IDR_Picture
  · rw [h5] at h
    by_cases hr : vt.RtmpTag = none
    · have hpc : w.PacketCount = vt.PacketCount + 1 :=
        (pushDirect_idr h5 (fun c => absurd hr c) h).2.1
      exact ⟨by omega, fun ha => absurd hr ha.2.1⟩
    · refine ⟨?_, fun ha hb => ?_⟩
      · have hpc : w.PacketCount = vt.PacketCount + 1 := by
          have hr2 : ¬ (vt.stamp ts b0).RtmpTag = none := hr
          simp only [VideoTrack.pushDirect, NALU_SPS, NALU_PPS, NALU_Access_Unit_Delimiter,
            NALU_IDR_Picture, Nat.reduceEqDiff, if_false, if_true, hr2, Outcome.ok.injEq] at h
          subst h
          simp [VideoTrack.publish, VideoTrack.GetBPS, VideoTrack.setPayload, VideoTrack.stamp]
        omega
      · have hi : vt.Buffer.Index < 256 := by
          have := ha.2.2.2.2.2.2
          omega
        obtain ⟨hw, hk⟩ := anchored_of_idr h5 (fun _ => ha.1) hi h
        exact ⟨hw, by have := ha.2.2.2.2.1; omega⟩
  · simp only [VideoTrack.pushDirect, h5, if_false] at h
    split_ifs at h
    all_goals simp only [Outcome.ok.injEq] at h
    all_goals subst h
    · exact (Keeps_stamp vt ts b0).sameTrack rfl rfl rfl rfl rfl
    · exact (Keeps_stamp vt ts b0).sameTrack rfl rfl rfl rfl rfl
    · exact Keeps_stamp vt ts b0
    · exact (Keeps_stamp vt ts b0).trans (Keeps_publish _ _)
    · exact Keeps_stamp vt ts b0

theorem stapaLoop_keeps {push : VideoTrack → List Nat → List Nat → Outcome VideoTrack}
    (hp : ∀ v p s w, push v p s = .ok w → Keeps v w) (payload spare : List Nat) :
    ∀ (n off : Nat) (v w : VideoTrack),
      stapaLoop push payload spare n off v = .ok w → Keeps v w := by
  intro n
  induction n with
  | zero =>
    intro off v w h
    simp only [stapaLoop] at h
    split_ifs at h
    simp only [Outcome.ok.injEq] at h
    subst h
    exact Keeps.refl _
  | succ n ih =>
    intro off v w h
    simp only [stapaLoop] at h
    split_ifs at h with c1
    · split at h
      · split_ifs at h with c2 c3
        · simp only [Outcome.ok.injEq] at h
          subst h
          exact Keeps.refl _
        · split at h
          · rename_i v1 hv1
            exact (hp _ _ _ _ hv1).trans (ih _ _ _ h)
          · simp at h
          · simp at h
      · simp at h
    · simp only [Outcome.ok.injEq] at h
      subst h
      exact Keeps.refl _

theorem PushSlice_keeps (ts : Nat) : ∀ (fuel : Nat) (vt : VideoTrack) (payload spare : List Nat)
    (w : VideoTrack), VideoTrack.PushSlice fuel vt ts payload spare = .ok w → Keeps vt w := by
  intro fuel
  induction fuel with
  | zero => intro vt payload spare w h; simp [VideoTrack.PushSlice] at h
  | succ n ih =>
    intro vt payload spare w h
    cases payload with
    | nil =>
      simp only [VideoTrack.PushSlice, Outcome.ok.injEq] at h
      subst h
      exact Keeps.refl _
    | cons b0 rest =>
      simp only [VideoTrack.PushSlice] at h
      split_ifs at h with c1 c2
      · exact (Keeps_stamp vt ts b0).trans
          (stapaLoop_keeps (fun v p s w hw => ih v p s w hw) _ _ _ _ _ _ h)
      · split at h
        · simp only [Outcome.ok.injEq] at h
          subst h
          exact Keeps_stamp vt ts b0
        · split_ifs at h
          all_goals first
            | exact ((Keeps_stamp vt ts b0).trans (Keeps_setPayload _ _)).trans (ih _ _ _ _ h)
            | (simp only [Outcome.ok.injEq] at h
               subst h
               exact (Keeps_stamp vt ts b0).trans (Keeps_setPayload _ _))
      · exact pushDirect_keeps h

theorem Push_keeps (ts fuel : Nat) (vt : VideoTrack) (payload : List Nat) (w : VideoTrack)
    (h : VideoTrack.Push fuel vt ts payload = .ok w) : Keeps vt w :=
  PushSlice_keeps ts fuel vt payload [] w h

theorem pushAll_keeps (fuel : Nat) : ∀ (packets : List (Nat × List Nat)) (vt w : VideoTrack),
    VideoTrack.pushAll fuel vt packets = .ok w → Keeps vt w := by
  intro packets
  induction packets with
  | nil =>
    intro vt w h
    simp only [VideoTrack.pushAll, Outcome.ok.injEq] at h
    subst h
    exact Keeps.refl _
  | cons a more ih =>
    intro vt w h
    obtain ⟨ts, payload⟩ := a
    simp only [VideoTrack.pushAll] at h
    cases h1 : VideoTrack.Push fuel vt ts payload with
    | ok v1 =>
      rw [h1] at h
      exact (Push_keeps ts fuel vt payload v1 h1).trans (ih v1 w h)
    | panic k => rw [h1] at h; simp [Outcome.bind] at h
    | outOfFuel => rw [h1] at h; simp [Outcome.bind] at h

theorem playFirst_of_anchored {vt : VideoTrack} (h : Anchored vt) :
    vt.playFirst = some (vt.Buffer.buffer vt.FirstScreen) := by
  simp [VideoTrack.playFirst, VideoTrack.playStart, h.1, Reader.step, Reader.send, Reader.NextR]
  split_ifs <;> simp

/-- On a unit whose type is neither 24 nor 28, `Push` is the opening writes
followed by the non-recursive cases. -/
theorem PushSlice_direct (fuel : Nat) (vt : VideoTrack) (ts b0 : Nat) (rest spare : List Nat)
    (h24 : b0 &&& naluTypeBitmask ≠ NALU_STAPA) (h28 : b0 &&& naluTypeBitmask ≠ NALU_FUA) :
    VideoTrack.PushSlice (fuel + 1) vt ts (b0 :: rest) spare =
      (vt.stamp ts b0).pushDirect (b0 &&& naluTypeBitmask) (b0 :: rest) spare := by
  simp only [VideoTrack.PushSlice, h24, h28, if_false]

/-- The same for a payload whose capacity is its length. -/
theorem Push_direct (fuel : Nat) (vt : VideoTrack) (ts b0 : Nat) (rest : List Nat)
    (h24 : b0 &&& naluTypeBitmask ≠ NALU_STAPA) (h28 : b0 &&& naluTypeBitmask ≠ NALU_FUA) :
    VideoTrack.Push (fuel + 1) vt ts (b0 :: rest) =
      (vt.stamp ts b0).pushDirect (b0 &&& naluTypeBitmask) (b0 :: rest) [] :=
  PushSlice_direct fuel vt ts b0 rest [] h24 h28

/-- C2 (amended): after a key-picture unit has been pushed and any further
packets have been pushed, as long as at most 255 units (the key picture
included) have been published since, `Play` hands to the callback first the
slot at `FirstScreen`, and that slot is a key picture published no earlier
than the one pushed. -/
theorem Play_first_is_key_within_ring (fuel : Nat) (vt v1 v2 : VideoTrack) (ts b0 : Nat)
    (rest : List Nat) (more : List (Nat × List Nat))
    (hi : vt.Buffer.Index < 256) (hw : vt.RtmpTag ≠ none → vt.WaitFirst = true)
    (h5 : b0 &&& naluTypeBitmask = NALU_IDR_Picture)
    (h1 : VideoTrack.Push fuel vt ts (b0 :: rest) = .ok v1)
    (h2 : VideoTrack.pushAll fuel v1 more = .ok v2)
    (hb : v2.PacketCount ≤ vt.PacketCount + 255) :
    ∃ pack, v2.playFirst = some pack ∧ pack = v2.Buffer.buffer v2.FirstScreen ∧
      pack.NalType = NALU_IDR_Picture ∧ vt.PacketCount ≤ pack.Sequence := by
  cases fuel with
  | zero => simp [VideoTrack.Push, VideoTrack.PushSlice] at h1
  | succ n =>
    rw [Push_direct n vt ts b0 rest (by rw [h5]; decide) (by rw [h5]; decide), h5] at h1
    obtain ⟨ha1, hk1⟩ := anchored_of_idr h5 hw hi h1
    obtain ⟨_, hk⟩ := pushAll_keeps (n + 1) more v1 v2 h2
    obtain ⟨ha2, hk2⟩ := hk ha1 (by omega)
    refine ⟨_, playFirst_of_anchored ha2, rfl, ha2.2.2.2.1, ?_⟩
    have : v2.keySeq = (v2.Buffer.buffer v2.FirstScreen).Sequence := rfl
    omega

/-- Instance of C2 (amended): a key picture followed by two non-key pictures. -/
theorem Play_first_is_key_within_ring_witness :
    ∃ pack, trackAfterKeyAndTwo.playFirst = some pack ∧
      pack = trackAfterKeyAndTwo.Buffer.buffer trackAfterKeyAndTwo.FirstScreen ∧
      pack.NalType = NALU_IDR_Picture ∧ trackWithParams.PacketCount ≤ pack.Sequence :=
  Play_first_is_key_within_ring 1 trackWithParams trackAfterKey trackAfterKeyAndTwo 0 0x65 [0x88]
    [(40, [0x41, 0x9A]), (80, [0x41, 0x9B])] (by decide) (by decide) (by decide) rfl rfl
    (by decide)

set_option maxRecDepth 100000 in
/-- C2 (fails on the code): after the parameter sets, one key picture and 300
non-key pictures, the slot at `FirstScreen` has been overwritten and the first
pack `Play` hands to the callback is a non-key picture. -/
theorem Play_first_not_key_after_300 :
    ((VideoTrack.pushAll 1 VideoTrack.zero keyThen300).toOption.bind
      VideoTrack.playFirst).map VideoPack.NalType = some NALU_Non_IDR_Picture := by
  decide


/-! ## C3: the dropping state at a key picture -/

/-- C3 (fails on the code): when the dropping reader's current slot is a key
picture, `drop` only sets `action = send`; the loop then runs `NextR` before
`send` is called, so nothing is delivered in that iteration and the next
iteration delivers the slot after the key picture. -/
theorem Play_drop_skips_key_frame (vt : VideoTrack) (r : Reader) (hd : r.action = .drop)
    (hk : (vt.Buffer.buffer r.Index).NalType = NALU_IDR_Picture) :
    (r.step vt).action = .send ∧ (r.step vt).delivered = r.delivered ∧
    (r.step vt).Index = (r.Index + 1) % 256 ∧
    ∀ vt1 : VideoTrack, ((r.step vt).step vt1).delivered =
      r.delivered ++ [vt1.Buffer.buffer ((r.Index + 1) % 256)] := by
  have hs : r.step vt = { r with action := .send, Index := (r.Index + 1) % 256 } := by
    simp [Reader.step, hd, Reader.drop, hk, Reader.NextR]
  rw [hs]
  refine ⟨rfl, rfl, rfl, fun vt1 => ?_⟩
  simp only [Reader.step, Reader.send, Reader.NextR]
  split_ifs <;> rfl

/-- Instance of C3: on `trackTwoKeys` the reader dropping at the key picture in
slot 2 delivers nothing there and then delivers slot 3. -/
theorem Play_drop_skips_key_frame_witness :
    (droppingReader.step trackTwoKeys).action = .send ∧
    (droppingReader.step trackTwoKeys).delivered = droppingReader.delivered ∧
    (droppingReader.step trackTwoKeys).Index = (droppingReader.Index + 1) % 256 ∧
    ∀ vt1 : VideoTrack, ((droppingReader.step trackTwoKeys).step vt1).delivered =
      droppingReader.delivered ++ [vt1.Buffer.buffer ((droppingReader.Index + 1) % 256)] :=
  Play_drop_skips_key_frame trackTwoKeys droppingReader rfl (by decide)

/-! ## C4: an aggregated payload with an oversized declared length -/

/-- C4 (fails on the code): in `[0x18, 0x00, 0x02, 0x41]` the sub-unit declares
2 bytes while 1 byte remains.  The check compares the declared length with the
length of the whole payload (4), so it does not discard, and the slice
`payload[3:5]` reaches past the end of the payload. -/
theorem Push_stapa_oversized_not_discarded (fuel : Nat) (vt : VideoTrack) (ts : Nat) :
    VideoTrack.Push (fuel + 1) vt ts [0x18, 0x00, 0x02, 0x41] =
      .panic .sliceOutOfRange := by
  simp +decide [VideoTrack.Push, VideoTrack.PushSlice, stapaLoop, naluTypeBitmask, NALU_STAPA,
    stapaHeaderSize, stapaNALULengthSize, Uint16]


/-! ## C5: fragments of a picture unit -/

/-- A fragment with the start bit and without the end bit starts a new
accumulation with the synthesized unit header. -/
theorem Push_fua_start (fuel : Nat) (vt : VideoTrack) (ts b0 b1 : Nat) (body : List Nat)
    (h28 : b0 &&& naluTypeBitmask = NALU_FUA) (hs : b1 &&& fuaStartBitmask ≠ 0)
    (he : b1 &&& fuaEndBitmask = 0) :
    VideoTrack.Push (fuel + 1) vt ts (b0 :: b1 :: body) =
      .ok ((vt.stamp ts b0).setPayload
        (b0 :: ((b0 &&& naluRefIdcBitmask) ||| (b1 &&& naluTypeBitmask)) :: body)) := by
  simp +decide [VideoTrack.Push, VideoTrack.PushSlice, h28, hs, he, NALU_FUA, NALU_STAPA,
    fuaHeaderSize]

/-- A fragment with neither bit appends its body to the accumulation. -/
theorem Push_fua_middle (fuel : Nat) (vt : VideoTrack) (ts b0 b1 : Nat) (body : List Nat)
    (h28 : b0 &&& naluTypeBitmask = NALU_FUA) (hs : b1 &&& fuaStartBitmask = 0)
    (he : b1 &&& fuaEndBitmask = 0) :
    VideoTrack.Push (fuel + 1) vt ts (b0 :: b1 :: body) =
      .ok ((vt.stamp ts b0).setPayload (vt.Buffer.Current.Payload ++ body)) := by
  simp +decide [VideoTrack.Push, VideoTrack.PushSlice, h28, hs, he, NALU_FUA, NALU_STAPA,
    fuaHeaderSize, VideoTrack.stamp]

/-- A fragment with the end bit only appends its body and pushes the
accumulation without its first byte. -/
theorem Push_fua_end (fuel : Nat) (vt : VideoTrack) (ts b0 b1 a0 : Nat) (acc body : List Nat)
    (h28 : b0 &&& naluTypeBitmask = NALU_FUA) (hs : b1 &&& fuaStartBitmask = 0)
    (he : b1 &&& fuaEndBitmask ≠ 0) (hacc : vt.Buffer.Current.Payload = a0 :: acc) :
    VideoTrack.Push (fuel + 1) vt ts (b0 :: b1 :: body) =
      VideoTrack.Push fuel ((vt.stamp ts b0).setPayload (a0 :: acc ++ body)) ts
        (acc ++ body) := by
  simp +decide [VideoTrack.Push, VideoTrack.PushSlice, h28, hs, he, NALU_FUA, NALU_STAPA,
    fuaHeaderSize, VideoTrack.stamp, hacc]

/-- For a picture unit the non-recursive cases do not depend on what the
current slot held before. -/
theorem pushDirect_picture_withCurrent (vt : VideoTrack) (c : VideoPack) (ts b0 : Nat)
    (payload spare : List Nat)
    (ht : b0 &&& naluTypeBitmask = NALU_Non_IDR_Picture ∨
      b0 &&& naluTypeBitmask = NALU_IDR_Picture) :
    ((vt.withCurrent c).stamp ts b0).pushDirect (b0 &&& naluTypeBitmask) payload spare =
      (vt.stamp ts b0).pushDirect (b0 &&& naluTypeBitmask) payload spare := by
  rcases ht with ht | ht
  · rw [ht]
    simp +decide [VideoTrack.pushDirect, NALU_Non_IDR_Picture, NALU_SPS, NALU_PPS,
      NALU_Access_Unit_Delimiter, NALU_IDR_Picture, VideoTrack.publish, VideoTrack.stamp,
      VideoTrack.setPayload, VideoTrack.GetBPS]
  · rw [ht]
    by_cases hr : vt.RtmpTag = none <;>
      by_cases hs : vt.SPS.length + vt.SPSSpare.length < 4 <;>
      cases hwf : vt.WaitFirst <;>
      simp +decide [VideoTrack.pushDirect, NALU_Non_IDR_Picture, NALU_SPS, NALU_PPS,
        NALU_Access_Unit_Delimiter, NALU_IDR_Picture, VideoTrack.publish, VideoTrack.stamp,
        VideoTrack.setPayload, VideoTrack.GetBPS, VideoTrack.setRtmpTag,
        VideoTrack.setRtmpTagWith,
        VideoTrack.closeWaitFirst, Outcome.bind, VideoTrack.withCurrent, hr, hs, hwf]

theorem Outcome.bind_ok_right {α : Type} (o : Outcome α) : (o.bind fun a => .ok a) = o := by
  cases o <;> rfl

theorem pushDirect_ne_outOfFuel (vt : VideoTrack) (ty : Nat) (payload spare : List Nat) :
    vt.pushDirect ty payload spare ≠ .outOfFuel := by
  unfold VideoTrack.pushDirect
  split_ifs
  all_goals try (simp; done)
  simp only [VideoTrack.setRtmpTag, VideoTrack.setRtmpTagWith]
  split_ifs
  all_goals simp only [Outcome.bind, VideoTrack.closeWaitFirst]
  all_goals try (simp; done)
  split_ifs <;> simp

/-- Bit facts about the fragment headers of a picture unit whose header byte
has the top bit clear. -/
theorem fua_header_bits : ∀ h, h < 128 → (h &&& 31 = 1 ∨ h &&& 31 = 5) →
    fuaIndicator h &&& 31 = 28 ∧
    (fuaIndicator h &&& 96) ||| ((128 ||| (h &&& 31)) &&& 31) = h ∧
    (128 ||| (h &&& 31)) &&& 128 ≠ 0 ∧ (128 ||| (h &&& 31)) &&& 64 = 0 ∧
    (h &&& 31) &&& 128 = 0 ∧ (h &&& 31) &&& 64 = 0 ∧
    (64 ||| (h &&& 31)) &&& 128 = 0 ∧ (64 ||| (h &&& 31)) &&& 64 ≠ 0 := by
  decide

/-- What a successful push of a picture unit writes: the slot at the old write
index holds the unit with its type, the timestamp and the old packet count,
and index and count advance by one. -/
theorem pushDirect_picture_slot {vt w : VideoTrack} {ts b0 : Nat} {payload spare : List Nat}
    (ht : b0 &&& naluTypeBitmask = NALU_Non_IDR_Picture ∨
      b0 &&& naluTypeBitmask = NALU_IDR_Picture)
    (h : (vt.stamp ts b0).pushDirect (b0 &&& naluTypeBitmask) payload spare = .ok w) :
    w.Buffer.buffer vt.Buffer.Index =
      { Timestamp := ts, Payload := payload, NalType := b0 &&& naluTypeBitmask,
        Sequence := vt.PacketCount } ∧
    w.Buffer.Index = (vt.Buffer.Index + 1) % 256 ∧ w.PacketCount = vt.PacketCount + 1 := by
  rcases ht with ht | ht
  · rw [ht] at h ⊢
    simp +decide [VideoTrack.pushDirect, NALU_Non_IDR_Picture, NALU_SPS, NALU_PPS,
      NALU_Access_Unit_Delimiter, NALU_IDR_Picture] at h
    subst h
    simp +decide [VideoTrack.publish, VideoTrack.stamp, VideoTrack.setPayload,
      VideoTrack.GetBPS, VideoTrack.withCurrent, Ring.setCurrent, Ring.NextW, Ring.Current, ht,
      NALU_Non_IDR_Picture]
  · rw [ht] at h ⊢
    by_cases hr : vt.RtmpTag = none <;>
      by_cases hs : vt.SPS.length + vt.SPSSpare.length < 4 <;>
      cases hwf : vt.WaitFirst <;>
      simp +decide [VideoTrack.pushDirect, NALU_Non_IDR_Picture, NALU_SPS, NALU_PPS,
        NALU_Access_Unit_Delimiter, NALU_IDR_Picture, VideoTrack.publish, VideoTrack.stamp,
        VideoTrack.setPayload, VideoTrack.GetBPS, VideoTrack.setRtmpTag,
        VideoTrack.setRtmpTagWith,
        VideoTrack.closeWaitFirst, Outcome.bind, VideoTrack.withCurrent, hr, hs, hwf] at h <;>
      subst h <;>
      simp +decide [Ring.setCurrent, Ring.NextW, Ring.Current, ht, NALU_IDR_Picture]

/-- C5 (amended): for a picture unit (type 1 or 5) whose header byte has the
top bit clear, pushing its start, middle and end fragments with one timestamp
gives the same outcome, hence the same track state, as pushing the unit
itself; the push returns, and the published slot holds the unit byte for byte
with its type, timestamp and sequence, and the write cursor has advanced. -/
theorem fragments_same_as_unit (fuel : Nat) (vt : VideoTrack) (ts h : Nat)
    (b1 b2 b3 : List Nat) (hh : h < 128)
    (ht : h &&& naluTypeBitmask = NALU_Non_IDR_Picture ∨
      h &&& naluTypeBitmask = NALU_IDR_Picture) :
    VideoTrack.pushAll (fuel + 2) vt
        [(ts, fuaStart h b1), (ts, fuaMiddle h b2), (ts, fuaEnd h b3)] =
      VideoTrack.Push (fuel + 2) vt ts (h :: (b1 ++ b2 ++ b3)) ∧
    VideoTrack.Push (fuel + 2) vt ts (h :: (b1 ++ b2 ++ b3)) ≠ .outOfFuel ∧
    ∀ w, VideoTrack.Push (fuel + 2) vt ts (h :: (b1 ++ b2 ++ b3)) = .ok w →
      w.Buffer.buffer vt.Buffer.Index =
        { Timestamp := ts, Payload := h :: (b1 ++ b2 ++ b3),
          NalType := h &&& naluTypeBitmask, Sequence := vt.PacketCount } ∧
      w.Buffer.Index = (vt.Buffer.Index + 1) % 256 := by
  obtain ⟨k1, k2, k3, k4, k5, k6, k7, k8⟩ := fua_header_bits h hh ht
  have k1 : fuaIndicator h &&& naluTypeBitmask = NALU_FUA := k1
  have k2 : (fuaIndicator h &&& naluRefIdcBitmask) |||
      ((fuaStartBitmask ||| (h &&& naluTypeBitmask)) &&& naluTypeBitmask) = h := k2
  have k3 : (fuaStartBitmask ||| (h &&& naluTypeBitmask)) &&& fuaStartBitmask ≠ 0 := k3
  have k4 : (fuaStartBitmask ||| (h &&& naluTypeBitmask)) &&& fuaEndBitmask = 0 := k4
  have k5 : (h &&& naluTypeBitmask) &&& fuaStartBitmask = 0 := k5
  have k6 : (h &&& naluTypeBitmask) &&& fuaEndBitmask = 0 := k6
  have k7 : (fuaEndBitmask ||| (h &&& naluTypeBitmask)) &&& fuaStartBitmask = 0 := k7
  have k8 : (fuaEndBitmask ||| (h &&& naluTypeBitmask)) &&& fuaEndBitmask ≠ 0 := k8
  have h24 : h &&& naluTypeBitmask ≠ NALU_STAPA := by
    rcases ht with ht | ht <;> rw [ht] <;> decide
  have h28 : h &&& naluTypeBitmask ≠ NALU_FUA := by
    rcases ht with ht | ht <;> rw [ht] <;> decide
  have hdirect : VideoTrack.Push (fuel + 2) vt ts (h :: (b1 ++ b2 ++ b3)) =
      (vt.stamp ts h).pushDirect (h &&& naluTypeBitmask) (h :: (b1 ++ b2 ++ b3)) [] :=
    Push_direct (fuel + 1) vt ts h (b1 ++ b2 ++ b3) h24 h28
  refine ⟨?_, ?_, ?_⟩
  · have e1 : ∀ v : VideoTrack, VideoTrack.Push (fuel + 2) v ts (fuaStart h b1) =
        .ok (v.withCurrent
          { Timestamp := ts, Payload := fuaIndicator h :: h :: b1,
            NalType := NALU_FUA, Sequence := v.PacketCount }) := by
      intro v
      have := Push_fua_start (fuel + 1) v ts _ _ b1 k1 k3 k4
      rw [k2, VideoTrack.stamp_setPayload, k1] at this
      exact this
    have e2 : ∀ (v : VideoTrack) (c : VideoPack),
        VideoTrack.Push (fuel + 2) (v.withCurrent c) ts (fuaMiddle h b2) =
        .ok (v.withCurrent
          { Timestamp := ts, Payload := c.Payload ++ b2,
            NalType := NALU_FUA, Sequence := v.PacketCount }) := by
      intro v c
      have := Push_fua_middle (fuel + 1) (v.withCurrent c) ts _ _ b2 k1 k5 k6
      rw [VideoTrack.stamp_setPayload, k1] at this
      simpa using this
    have e3 : ∀ (v : VideoTrack) (c : VideoPack) (a0 : Nat) (acc : List Nat),
        c.Payload = a0 :: acc →
        VideoTrack.Push (fuel + 2) (v.withCurrent c) ts (fuaEnd h b3) =
        VideoTrack.Push (fuel + 1) (v.withCurrent
          { Timestamp := ts, Payload := a0 :: acc ++ b3,
            NalType := NALU_FUA, Sequence := v.PacketCount }) ts (acc ++ b3) := by
      intro v c a0 acc hc
      have := Push_fua_end (fuel + 1) (v.withCurrent c) ts _ _ a0 acc b3 k1 k7 k8 (by simpa using hc)
      rw [VideoTrack.stamp_setPayload, k1] at this
      simpa using this
    simp only [VideoTrack.pushAll]
    rw [e1]
    simp only [Outcome.bind]
    rw [e2]
    simp only [Outcome.bind]
    rw [e3 vt _ (fuaIndicator h) (h :: b1 ++ b2) rfl]
    have hl : h :: b1 ++ b2 ++ b3 = h :: (b1 ++ b2 ++ b3) := by simp
    rw [hl, Push_direct fuel _ ts h (b1 ++ b2 ++ b3) h24 h28,
      pushDirect_picture_withCurrent vt _ ts h _ _ ht, hdirect]
    cases (vt.stamp ts h).pushDirect (h &&& naluTypeBitmask) (h :: (b1 ++ b2 ++ b3)) [] <;> rfl
  · rw [hdirect]
    exact pushDirect_ne_outOfFuel _ _ _ _
  · intro w hw
    rw [hdirect] at hw
    have := pushDirect_picture_slot ht hw
    exact ⟨this.1, this.2.1⟩


/-- Instance of C5 (amended): the key picture `[0x65, 1, 2, 3]` in three
fragments on a track that holds its parameter sets. -/
theorem fragments_same_as_unit_witness :
    VideoTrack.pushAll (0 + 2) trackWithParams
        [(0, fuaStart 0x65 [1]), (0, fuaMiddle 0x65 [2]), (0, fuaEnd 0x65 [3])] =
      VideoTrack.Push (0 + 2) trackWithParams 0 (0x65 :: ([1] ++ [2] ++ [3])) ∧
    VideoTrack.Push (0 + 2) trackWithParams 0 (0x65 :: ([1] ++ [2] ++ [3])) ≠ .outOfFuel ∧
    ∀ w, VideoTrack.Push (0 + 2) trackWithParams 0 (0x65 :: ([1] ++ [2] ++ [3])) = .ok w →
      w.Buffer.buffer trackWithParams.Buffer.Index =
        { Timestamp := 0, Payload := 0x65 :: ([1] ++ [2] ++ [3]),
          NalType := 0x65 &&& naluTypeBitmask, Sequence := trackWithParams.PacketCount } ∧
      w.Buffer.Index = (trackWithParams.Buffer.Index + 1) % 256 :=
  fragments_same_as_unit 0 trackWithParams 0 0x65 [1] [2] [3] (by decide) (by decide)

/-- C5 (fails on the code): for the key picture `[0x85, 1, 2, 3]`, whose
header byte has the top bit set, the fragments reassemble to `[0x05, 1, 2, 3]`
because the start branch keeps only the bits `0x60` of the indicator, while
the unit pushed unfragmented is published as `[0x85, 1, 2, 3]`. -/
theorem fragments_differ_with_top_bit :
    ((VideoTrack.pushAll 2 trackWithParams
        [(0, fuaStart 0x85 [1]), (0, fuaMiddle 0x85 [2]), (0, fuaEnd 0x85 [3])]).toOption.map
      fun w => (w.Buffer.buffer 0).Payload) = some [0x05, 1, 2, 3] ∧
    ((VideoTrack.Push 2 trackWithParams 0 [0x85, 1, 2, 3]).toOption.map
      fun w => (w.Buffer.buffer 0).Payload) = some [0x85, 1, 2, 3] := by
  decide

/-! ## C6: an aggregated payload of two units -/

theorem VideoTrack.stamp_stamp (vt : VideoTrack) (ts b c : Nat) :
    (vt.stamp ts b).stamp ts c = vt.stamp ts c := by
  simp [VideoTrack.stamp]

/-- One iteration of the STAP-A loop on a well-formed sub-unit: the call
receives the sub-unit and, behind it, the rest of the payload and its spare
bytes. -/
theorem stapaLoop_step (push : VideoTrack → List Nat → List Nat → Outcome VideoTrack)
    (payload spare : List Nat) (n off : Nat) (vt : VideoTrack) (b0 b1 : Nat) (rest : List Nat)
    (hd : payload.drop off = b0 :: b1 :: rest) (hsz : Uint16 b0 b1 ≤ rest.length) :
    stapaLoop push payload spare (n + 1) off vt =
      (push vt (rest.take (Uint16 b0 b1)) (rest.drop (Uint16 b0 b1) ++ spare)).bind
        fun v => stapaLoop push payload spare n (off + 2 + Uint16 b0 b1) v := by
  have hlen : payload.length = off + (rest.length + 2) := by
    have h1 := congrArg List.length hd
    simp only [List.length_drop, List.length_cons] at h1
    omega
  have hrest : payload.drop (off + 2) = rest := by
    have : payload.drop (off + 2) = (payload.drop off).drop 2 := by
      rw [List.drop_drop]
    rw [this, hd]
    rfl
  have hall : (payload ++ spare).drop (off + 2) = rest ++ spare := by
    rw [List.drop_append_of_le_length (by omega), hrest]
  have htake : ((payload ++ spare).drop (off + 2)).take (Uint16 b0 b1) =
      rest.take (Uint16 b0 b1) := by
    rw [hall, List.take_append_of_le_length hsz]
  have hdrop : (payload ++ spare).drop (off + 2 + Uint16 b0 b1) =
      rest.drop (Uint16 b0 b1) ++ spare := by
    have : (payload ++ spare).drop (off + 2 + Uint16 b0 b1) =
        ((payload ++ spare).drop (off + 2)).drop (Uint16 b0 b1) := by
      rw [List.drop_drop]
    rw [this, hall, List.drop_append_of_le_length hsz]
  have c1 : off < payload.length := by omega
  have c2 : ¬ (off + stapaNALULengthSize + payload.length <
      off + stapaNALULengthSize + Uint16 b0 b1) := by omega
  have c3 : ¬ (payload.length + spare.length < off + stapaNALULengthSize + Uint16 b0 b1) := by
    simp only [stapaNALULengthSize]; omega
  simp only [stapaLoop, c1, if_true, hd, c2, c3, if_false]
  simp only [stapaNALULengthSize, htake, hdrop]
  cases push vt (rest.take (Uint16 b0 b1)) (rest.drop (Uint16 b0 b1) ++ spare) <;> rfl

/-- The STAP-A loop stops once the offset has reached the end. -/
theorem stapaLoop_done (push : VideoTrack → List Nat → List Nat → Outcome VideoTrack)
    (payload spare : List Nat) (n off : Nat) (vt : VideoTrack) (h : ¬ off < payload.length) :
    stapaLoop push payload spare n off vt = .ok vt := by
  cases n <;> simp [stapaLoop, h]

theorem Uint16_bigEndian16 (n : Nat) (h : n < 65536) : Uint16 (n / 256 % 256) (n % 256) = n := by
  simp only [Uint16]
  omega

/-- Only the SPS case of the switch keeps the slice it is given: for every
other type the bytes behind the payload play no part. -/
theorem pushDirect_spare (vt : VideoTrack) (ty : Nat) (payload spare : List Nat)
    (h : ty ≠ NALU_SPS) : vt.pushDirect ty payload spare = vt.pushDirect ty payload [] := by
  simp only [VideoTrack.pushDirect, h, if_false]

/-- Away from the cached SPS the aggregated payload decomposes: for units `a`
and `b` that are neither aggregated nor fragmented payloads and shorter than
65536 bytes, where `a` is not an SPS unit, pushing the aggregated payload of
the two gives the same outcome, hence the same track state, as pushing `a` and
then `b` with the same timestamp, and the push returns. -/
theorem aggregate_same_as_units_unless_SPS (fuel : Nat) (vt : VideoTrack) (ts hdr a0 c0 : Nat)
    (ra rc : List Nat) (hhdr : hdr &&& naluTypeBitmask = NALU_STAPA)
    (ha24 : a0 &&& naluTypeBitmask ≠ NALU_STAPA) (ha28 : a0 &&& naluTypeBitmask ≠ NALU_FUA)
    (ha7 : a0 &&& naluTypeBitmask ≠ NALU_SPS)
    (hc24 : c0 &&& naluTypeBitmask ≠ NALU_STAPA) (hc28 : c0 &&& naluTypeBitmask ≠ NALU_FUA)
    (hla : (a0 :: ra).length < 65536) (hlc : (c0 :: rc).length < 65536) :
    VideoTrack.Push (fuel + 2) vt ts (stapaOfTwo hdr (a0 :: ra) (c0 :: rc)) =
      (VideoTrack.Push (fuel + 2) vt ts (a0 :: ra)).bind
        (fun v => VideoTrack.Push (fuel + 2) v ts (c0 :: rc)) ∧
    VideoTrack.Push (fuel + 2) vt ts (stapaOfTwo hdr (a0 :: ra) (c0 :: rc)) ≠ .outOfFuel := by
  have hmain : VideoTrack.Push (fuel + 2) vt ts (stapaOfTwo hdr (a0 :: ra) (c0 :: rc)) =
      (VideoTrack.Push (fuel + 2) vt ts (a0 :: ra)).bind
        (fun v => VideoTrack.Push (fuel + 2) v ts (c0 :: rc)) := by
    have hA : ∀ v : VideoTrack, VideoTrack.Push (fuel + 2) v ts (a0 :: ra) =
        (v.stamp ts a0).pushDirect (a0 &&& naluTypeBitmask) (a0 :: ra) [] :=
      fun v => Push_direct (fuel + 1) v ts a0 ra ha24 ha28
    have hC : ∀ v : VideoTrack, VideoTrack.Push (fuel + 2) v ts (c0 :: rc) =
        (v.stamp ts c0).pushDirect (c0 &&& naluTypeBitmask) (c0 :: rc) [] :=
      fun v => Push_direct (fuel + 1) v ts c0 rc hc24 hc28
    have hA1 : ∀ (v : VideoTrack) (sp : List Nat),
        VideoTrack.PushSlice (fuel + 1) v ts (a0 :: ra) sp =
        (v.stamp ts a0).pushDirect (a0 &&& naluTypeBitmask) (a0 :: ra) [] := by
      intro v sp
      rw [PushSlice_direct fuel v ts a0 ra sp ha24 ha28, pushDirect_spare _ _ _ _ ha7]
    have hC1 : ∀ v : VideoTrack, VideoTrack.PushSlice (fuel + 1) v ts (c0 :: rc) ([] ++ []) =
        (v.stamp ts c0).pushDirect (c0 &&& naluTypeBitmask) (c0 :: rc) [] :=
      fun v => PushSlice_direct fuel v ts c0 rc [] hc24 hc28
    have hunfold : VideoTrack.Push (fuel + 2) vt ts (stapaOfTwo hdr (a0 :: ra) (c0 :: rc)) =
        stapaLoop (fun v p s => VideoTrack.PushSlice (fuel + 1) v ts p s)
          (stapaOfTwo hdr (a0 :: ra) (c0 :: rc)) []
          (stapaOfTwo hdr (a0 :: ra) (c0 :: rc)).length stapaHeaderSize (vt.stamp ts hdr) := by
      simp only [stapaOfTwo, VideoTrack.Push, VideoTrack.PushSlice, hhdr, if_true]
    have hlen : (stapaOfTwo hdr (a0 :: ra) (c0 :: rc)).length =
        (ra.length + rc.length + 5) + 1 + 1 := by
      simp [stapaOfTwo, bigEndian16]
      omega
    have hd1 : (stapaOfTwo hdr (a0 :: ra) (c0 :: rc)).drop stapaHeaderSize =
        ((a0 :: ra).length / 256 % 256) :: ((a0 :: ra).length % 256) ::
          ((a0 :: ra) ++ (bigEndian16 (c0 :: rc).length ++ (c0 :: rc))) := by
      simp [stapaOfTwo, bigEndian16, stapaHeaderSize]
    have hd2 : (stapaOfTwo hdr (a0 :: ra) (c0 :: rc)).drop
          (stapaHeaderSize + 2 + (a0 :: ra).length) =
        ((c0 :: rc).length / 256 % 256) :: ((c0 :: rc).length % 256) :: (c0 :: rc) := by
      have : stapaOfTwo hdr (a0 :: ra) (c0 :: rc) =
          (hdr :: bigEndian16 (a0 :: ra).length ++ (a0 :: ra)) ++
            (bigEndian16 (c0 :: rc).length ++ (c0 :: rc)) := by
        simp [stapaOfTwo]
      rw [this, List.drop_left']
      · rfl
      · simp [bigEndian16, stapaHeaderSize]
        omega
    rw [hunfold, hlen,
      stapaLoop_step _ _ _ _ _ _ _ _ _ hd1 (by rw [Uint16_bigEndian16 _ hla]; simp),
      Uint16_bigEndian16 _ hla, List.take_left' rfl, hA1, VideoTrack.stamp_stamp, hA]
    congr 1
    funext v
    rw [stapaLoop_step _ _ _ _ _ _ _ _ _ hd2 (by rw [Uint16_bigEndian16 _ hlc]),
      Uint16_bigEndian16 _ hlc, List.take_length, List.drop_length, hC1, hC]
    have hdone : ∀ u : VideoTrack,
        stapaLoop (fun v p s => VideoTrack.PushSlice (fuel + 1) v ts p s)
          (stapaOfTwo hdr (a0 :: ra) (c0 :: rc)) [] (ra.length + rc.length + 5)
          (stapaHeaderSize + 2 + (a0 :: ra).length + 2 + (c0 :: rc).length) u = .ok u := by
      intro u
      apply stapaLoop_done
      simp [stapaOfTwo, bigEndian16, stapaHeaderSize]
      omega
    cases hres : (v.stamp ts c0).pushDirect (c0 &&& naluTypeBitmask) (c0 :: rc) [] with
    | ok u => simp only [Outcome.bind, hdone]
    | panic k => rfl
    | outOfFuel => rfl
  refine ⟨hmain, ?_⟩
  rw [hmain, Push_direct (fuel + 1) vt ts a0 ra ha24 ha28]
  cases hres : (vt.stamp ts a0).pushDirect (a0 &&& naluTypeBitmask) (a0 :: ra) [] with
  | ok u =>
    simp only [Outcome.bind]
    rw [Push_direct (fuel + 1) u ts c0 rc hc24 hc28]
    exact pushDirect_ne_outOfFuel _ _ _ _
  | panic k => simp [Outcome.bind]
  | outOfFuel => exact absurd hres (pushDirect_ne_outOfFuel _ _ _ _)

/-- C6 (fails on the code): on a new track take the 2-byte SPS unit
`[0x67, 0x42]` and the key picture `[0x65, 0x88]`.  Their aggregated payload is
`[0x18, 0x00, 0x02, 0x67, 0x42, 0x00, 0x02, 0x65, 0x88]`; pushing it returns:
the cached SPS is the sub-slice `payload[3:5]`, which keeps the rest of the
packet as capacity, so `vt.SPS[1:4]` is `[0x42, 0x00, 0x02]`, the sequence
header is built from it, the first-frame signal fires and the key picture is
published.  Pushing the two units standalone with the same timestamp ends in
the slice-out-of-range panic at `vt.SPS[1:4]`. -/
theorem aggregate_differs_from_units_on_short_SPS :
    stapaOfTwo 0x18 [0x67, 0x42] [0x65, 0x88] =
      [0x18, 0x00, 0x02, 0x67, 0x42, 0x00, 0x02, 0x65, 0x88] ∧
    ((VideoTrack.Push 2 VideoTrack.zero 0
        [0x18, 0x00, 0x02, 0x67, 0x42, 0x00, 0x02, 0x65, 0x88]).toOption.map
      fun w => (w.SPS, w.SPSSpare, w.RtmpTag.map (fun t => (t.drop 6).take 3), w.WaitFirst,
        w.PacketCount, (w.Buffer.buffer 0).Payload)) =
      some ([0x67, 0x42], [0x00, 0x02, 0x65, 0x88], some [0x42, 0x00, 0x02], true, 1,
        [0x65, 0x88]) ∧
    (VideoTrack.Push 2 VideoTrack.zero 0 [0x67, 0x42]).bind
        (fun v => VideoTrack.Push 2 v 0 [0x65, 0x88]) = .panic .sliceOutOfRange := by
  refine ⟨rfl, rfl, rfl⟩

/-! ## C7: gap handling in `PushPS` -/

theorem PSPublisher.ReceiveVideo_lastSeq {D R : Type} (p : PSPublisher D R)
    (es : MpegPsEsStream) : ∀ q, p.ReceiveVideo es = .ok q → q.lastSeq = p.lastSeq := by
  unfold PSPublisher.ReceiveVideo
  simp only [PSPublisher.emit]
  split_ifs
  all_goals try split
  all_goals try split_ifs
  all_goals intro q h
  all_goals first
    | (simp only [Outcome.bind, Outcome.ok.injEq] at h; rw [← h])
    | (simp only [Outcome.bind] at h; cases h)

theorem PSPublisher.ReceiveAudio_lastSeq {D R : Type} (p : PSPublisher D R)
    (es : MpegPsEsStream) : ∀ q, p.ReceiveAudio es = .ok q → q.lastSeq = p.lastSeq := by
  unfold PSPublisher.ReceiveAudio
  simp only [PSPublisher.emit]
  split_ifs
  all_goals try split
  all_goals try split_ifs
  all_goals try split
  all_goals try split_ifs
  all_goals intro q h
  all_goals first
    | (simp only [Outcome.ok.injEq] at h; rw [← h])
    | cases h

theorem PSPublisher.handle_lastSeq {D R : Type} : ∀ (units : List EsUnit)
    (p q : PSPublisher D R), PSPublisher.handle units p = .ok q → q.lastSeq = p.lastSeq := by
  intro units
  induction units with
  | nil =>
    intro p q h
    simp only [PSPublisher.handle, Outcome.ok.injEq] at h
    rw [← h]
  | cons u more ih =>
    intro p q h
    cases u with
    | video es =>
      simp only [PSPublisher.handle] at h
      cases hv : p.ReceiveVideo es with
      | ok p1 =>
        rw [hv] at h
        rw [ih p1 q h, PSPublisher.ReceiveVideo_lastSeq p es p1 hv]
      | panic k => rw [hv] at h; simp [Outcome.bind] at h
      | outOfFuel => rw [hv] at h; simp [Outcome.bind] at h
    | audio es =>
      simp only [PSPublisher.handle] at h
      cases hv : p.ReceiveAudio es with
      | ok p1 =>
        rw [hv] at h
        rw [ih p1 q h, PSPublisher.ReceiveAudio_lastSeq p es p1 hv]
      | panic k => rw [hv] at h; simp [Outcome.bind] at h
      | outOfFuel => rw [hv] at h; simp [Outcome.bind] at h

/-- C7: for a released item with sequence `s`, the gap handling runs exactly
when `s` is not `(lastSeq + 1) mod 65536`: `Reset` is among the calls made
before the item is fed, and the demultiplexer state is reset, if and only if
`s` is not the successor, and `SetLostFlag` is among them if and only if in
addition a video track exists.  So 0 after 65535 is no gap and 13 after 10 is
one.  When the loop body completes, `lastSeq` equals `s`. -/
theorem PushPS_gap_iff_not_successor {D R : Type} (dm : Demux D) (p : PSPublisher D R)
    (item : cacheItem) :
    (Event.Reset ∈ (p.checkGap dm item).log.drop p.log.length ↔
      item.Seq ≠ (p.lastSeq + 1) % 65536) ∧
    (Event.SetLostFlag ∈ (p.checkGap dm item).log.drop p.log.length ↔
      (item.Seq ≠ (p.lastSeq + 1) % 65536 ∧ p.VideoTrack ≠ none)) ∧
    ((p.checkGap dm item).demux =
      if item.Seq ≠ (p.lastSeq + 1) % 65536 then dm.reset p.demux else p.demux) ∧
    (p.lastSeq = 65535 → item.Seq = 0 → p.checkGap dm item = p) ∧
    (p.lastSeq = 10 → item.Seq = 13 →
      Event.Reset ∈ (p.checkGap dm item).log.drop p.log.length) ∧
    (∀ q, p.onReleased dm item = .ok q → q.lastSeq = item.Seq) := by
  have hreset : Event.Reset ∈ (p.checkGap dm item).log.drop p.log.length ↔
      item.Seq ≠ (p.lastSeq + 1) % 65536 := by
    by_cases h : item.Seq = (p.lastSeq + 1) % 65536
    · simp [PSPublisher.checkGap, h]
    · by_cases hv : p.VideoTrack = none <;> simp [PSPublisher.checkGap, h, hv, PSPublisher.emit]
  refine ⟨hreset, ?_, ?_, fun h1 h2 => ?_, fun h1 h2 => ?_, fun q hq => ?_⟩
  · by_cases h : item.Seq = (p.lastSeq + 1) % 65536
    · simp [PSPublisher.checkGap, h]
    · by_cases hv : p.VideoTrack = none <;> simp [PSPublisher.checkGap, h, hv, PSPublisher.emit]
  · by_cases h : item.Seq = (p.lastSeq + 1) % 65536
    · simp [PSPublisher.checkGap, h]
    · by_cases hv : p.VideoTrack = none <;> simp [PSPublisher.checkGap, h, hv, PSPublisher.emit]
  · simp [PSPublisher.checkGap, h1, h2]
  · exact hreset.2 (by rw [h1, h2]; decide)
  · simp only [PSPublisher.onReleased, PSPublisher.Feed] at hq
    cases hf : PSPublisher.handle (dm.feed (p.checkGap dm item).demux item.Value).2
        ({ p.checkGap dm item with
            demux := (dm.feed (p.checkGap dm item).demux item.Value).1 }.emit
          (Event.Feed item.Value)) with
    | ok p1 =>
      rw [hf] at hq
      simp only [Outcome.bind, Outcome.ok.injEq, PSPublisher.emit] at hq
      rw [← hq]
    | panic k => rw [hf] at hq; simp [Outcome.bind] at hq
    | outOfFuel => rw [hf] at hq; simp [Outcome.bind] at hq

/-- Instance of C7: sequence 13 released after 10 on a publisher with a video
track; the loop body completes and leaves `lastSeq = 13`. -/
theorem PushPS_gap_iff_not_successor_witness :
    (∃ q, publisherAtTen.onReleased idleDemux { Seq := 13, Value := [1, 2] } = .ok q ∧
      q.lastSeq = 13 ∧
      q.log = [Event.Debug 13 10, Event.Reset, Event.SetLostFlag, Event.Feed [1, 2],
        Event.Recycle { Seq := 13, Value := [1, 2] }]) ∧
    Event.Reset ∈ (publisherAtTen.checkGap idleDemux { Seq := 13, Value := [1, 2] }).log.drop
      publisherAtTen.log.length :=
  ⟨⟨_, rfl, (PushPS_gap_iff_not_successor idleDemux publisherAtTen
      { Seq := 13, Value := [1, 2] }).2.2.2.2.2 _ rfl, by decide⟩,
    (PushPS_gap_iff_not_successor idleDemux publisherAtTen
      { Seq := 13, Value := [1, 2] }).2.2.2.2.1 rfl rfl⟩


/-! ## C8: the first-decodable-frame signal fires once -/

theorem FiresOnce_ok_self {vt : VideoTrack} (h : SignalInv vt) : FiresOnce vt (.ok vt) :=
  ⟨h, fun hr => ⟨rfl, h.2 hr⟩⟩

theorem FiresOnce_chain {v v1 : VideoTrack} {o : Outcome VideoTrack}
    (h1 : FiresOnce v (.ok v1)) (h2 : FiresOnce v1 o) : FiresOnce v o := by
  cases o with
  | ok w =>
    obtain ⟨_, k1⟩ := h1
    obtain ⟨i2, k2⟩ := h2
    refine ⟨i2, fun hr => ?_⟩
    obtain ⟨e1, _⟩ := k1 hr
    obtain ⟨e2, w2⟩ := k2 (by rw [e1]; exact hr)
    exact ⟨by rw [e2, e1], w2⟩
  | panic k => exact h2
  | outOfFuel => trivial

theorem FiresOnce_withCurrent {vt : VideoTrack} (h : SignalInv vt) (c : VideoPack) :
    FiresOnce vt (.ok (vt.withCurrent c)) :=
  ⟨h, fun hr => ⟨rfl, h.2 hr⟩⟩

theorem pushDirect_firesOnce {vt : VideoTrack} (h : SignalInv vt) (ty : Nat)
    (payload spare : List Nat) : FiresOnce vt (vt.pushDirect ty payload spare) := by
  unfold VideoTrack.pushDirect
  split_ifs with c1 c2 c3 c4 c5 c6
  · exact ⟨h, fun hr => ⟨rfl, h.2 hr⟩⟩
  · exact ⟨h, fun hr => ⟨rfl, h.2 hr⟩⟩
  · exact FiresOnce_ok_self h
  · have hw : vt.WaitFirst = false := by
      cases hwf : vt.WaitFirst with
      | false => rfl
      | true => exact absurd c5 (h.1 hwf)
    simp only [VideoTrack.setRtmpTag, VideoTrack.setRtmpTagWith]
    split_ifs
    · simp [Outcome.bind, FiresOnce]
    · simp [Outcome.bind, FiresOnce]
    · simp [Outcome.bind, FiresOnce, VideoTrack.closeWaitFirst, hw, SignalInv,
        VideoTrack.publish, VideoTrack.GetBPS, VideoTrack.setPayload, VideoTrack.withCurrent, c5]
  · exact ⟨h, fun hr => ⟨rfl, h.2 hr⟩⟩
  · exact ⟨h, fun hr => ⟨rfl, h.2 hr⟩⟩
  · exact FiresOnce_ok_self h

theorem stapaLoop_firesOnce {push : VideoTrack → List Nat → List Nat → Outcome VideoTrack}
    (hp : ∀ v p s, SignalInv v → FiresOnce v (push v p s)) (payload spare : List Nat) :
    ∀ (n off : Nat) (v : VideoTrack), SignalInv v →
      FiresOnce v (stapaLoop push payload spare n off v) := by
  intro n
  induction n with
  | zero =>
    intro off v hv
    simp only [stapaLoop]
    split_ifs
    · trivial
    · exact FiresOnce_ok_self hv
  | succ n ih =>
    intro off v hv
    simp only [stapaLoop]
    split_ifs with c1
    · split
      · split_ifs with c2 c3
        · exact FiresOnce_ok_self hv
        · simp [FiresOnce]
        · rename_i b0 b1 tl hd
          have h1 := hp v
            (((payload ++ spare).drop (off + stapaNALULengthSize)).take (Uint16 b0 b1))
            ((payload ++ spare).drop (off + stapaNALULengthSize + Uint16 b0 b1)) hv
          split
          · rename_i v1 hv1
            rw [hv1] at h1
            exact FiresOnce_chain h1 (ih _ _ h1.1)
          · rename_i k hk
            rw [hk] at h1
            exact h1
          · trivial
      · simp [FiresOnce]
    · exact FiresOnce_ok_self hv

theorem PushSlice_firesOnce (ts : Nat) : ∀ (fuel : Nat) (vt : VideoTrack)
    (payload spare : List Nat),
    SignalInv vt → FiresOnce vt (VideoTrack.PushSlice fuel vt ts payload spare) := by
  intro fuel
  induction fuel with
  | zero => intro vt payload spare _; simp [VideoTrack.PushSlice, FiresOnce]
  | succ n ih =>
    intro vt payload spare hv
    cases payload with
    | nil => exact FiresOnce_ok_self hv
    | cons b0 rest =>
      have hs : SignalInv (vt.stamp ts b0) := hv
      have h0 : FiresOnce vt (.ok (vt.stamp ts b0)) := FiresOnce_withCurrent hv _
      simp only [VideoTrack.PushSlice]
      split_ifs with c1 c2
      · exact FiresOnce_chain h0
          (stapaLoop_firesOnce (fun v p s hv => ih v p s hv) _ _ _ _ _ hs)
      · split
        · exact h0
        · have hs2 : ∀ acc, SignalInv ((vt.stamp ts b0).setPayload acc) := fun _ => hv
          have h1 : ∀ acc, FiresOnce vt (.ok ((vt.stamp ts b0).setPayload acc)) :=
            fun acc => ⟨hv, fun hr => ⟨rfl, hv.2 hr⟩⟩
          split_ifs
          all_goals first
            | exact h1 _
            | exact FiresOnce_chain (h1 _) (ih _ _ _ (hs2 _))
            | simp [FiresOnce]
      · exact FiresOnce_chain h0 (pushDirect_firesOnce hs _ _ _)

theorem Push_firesOnce (ts fuel : Nat) (vt : VideoTrack) (payload : List Nat)
    (h : SignalInv vt) : FiresOnce vt (VideoTrack.Push fuel vt ts payload) :=
  PushSlice_firesOnce ts fuel vt payload [] h

theorem pushAll_firesOnce (fuel : Nat) : ∀ (packets : List (Nat × List Nat)) (vt : VideoTrack),
    SignalInv vt → FiresOnce vt (VideoTrack.pushAll fuel vt packets) := by
  intro packets
  induction packets with
  | nil => intro vt hv; exact FiresOnce_ok_self hv
  | cons a more ih =>
    intro vt hv
    obtain ⟨ts, payload⟩ := a
    simp only [VideoTrack.pushAll]
    have h1 := Push_firesOnce ts fuel vt payload hv
    cases hp : VideoTrack.Push fuel vt ts payload with
    | ok v1 =>
      rw [hp] at h1
      exact FiresOnce_chain h1 (ih v1 h1.1)
    | panic k => rw [hp] at h1; exact h1
    | outOfFuel => trivial

/-- C8: on a track where `WaitFirst` is closed exactly when `RtmpTag` is
non-nil (as on a new track, where neither holds), over any sequence of pushes
the channel is never closed twice; after a normal return the two still go
together and, if the signal had fired before, `RtmpTag` is unchanged and
`WaitFirst` still closed.  The signal fires at the first key-picture unit
(from open to closed, with `RtmpTag` synthesized) and a unit that is neither
a key picture nor an aggregated or fragmented payload does not fire it. -/
theorem first_frame_signal_once (fuel : Nat) (vt : VideoTrack)
    (packets : List (Nat × List Nat)) (hinv : vt.WaitFirst = true ↔ vt.RtmpTag ≠ none) :
    VideoTrack.pushAll fuel vt packets ≠ .panic .closeOfClosedChannel ∧
    (∀ w, VideoTrack.pushAll fuel vt packets = .ok w →
      (w.WaitFirst = true ↔ w.RtmpTag ≠ none) ∧
      (vt.RtmpTag ≠ none → w.RtmpTag = vt.RtmpTag ∧ w.WaitFirst = true)) ∧
    (∀ ts b0 rest w, vt.RtmpTag = none → b0 &&& naluTypeBitmask = NALU_IDR_Picture →
      VideoTrack.Push fuel vt ts (b0 :: rest) = .ok w →
      vt.WaitFirst = false ∧ w.WaitFirst = true ∧ w.RtmpTag ≠ none) ∧
    (∀ ts b0 rest w, b0 &&& naluTypeBitmask ≠ NALU_IDR_Picture →
      b0 &&& naluTypeBitmask ≠ NALU_STAPA → b0 &&& naluTypeBitmask ≠ NALU_FUA →
      VideoTrack.Push fuel vt ts (b0 :: rest) = .ok w →
      w.WaitFirst = vt.WaitFirst ∧ w.RtmpTag = vt.RtmpTag) := by
  have hall := pushAll_firesOnce fuel packets vt hinv
  refine ⟨?_, ?_, ?_, ?_⟩
  · intro hp
    rw [hp] at hall
    exact hall rfl
  · intro w hw
    rw [hw] at hall
    exact hall
  · intro ts b0 rest w hr h5 hw
    cases fuel with
    | zero => simp [VideoTrack.Push, VideoTrack.PushSlice] at hw
    | succ n =>
      rw [Push_direct n vt ts b0 rest (by rw [h5]; decide) (by rw [h5]; decide), h5] at hw
      obtain ⟨_, _, _, _, a5, a6⟩ := pushDirect_idr h5 (fun c => absurd hr c) hw
      refine ⟨?_, a6, a5⟩
      cases hwf : vt.WaitFirst with
      | false => rfl
      | true => exact absurd hr (hinv.1 hwf)
  · intro ts b0 rest w h5 h24 h28 hw
    cases fuel with
    | zero => simp [VideoTrack.Push, VideoTrack.PushSlice] at hw
    | succ n =>
      rw [Push_direct n vt ts b0 rest h24 h28] at hw
      simp only [VideoTrack.pushDirect, h5, if_false] at hw
      split_ifs at hw
      all_goals simp only [Outcome.ok.injEq] at hw
      all_goals subst hw
      all_goals exact ⟨rfl, rfl⟩

/-- Instance of C8: on a track holding its parameter sets, a key picture, a
non-key picture and a second key picture are pushed; the run returns, never
closes the channel twice, and ends with the signal fired. -/
theorem first_frame_signal_once_witness :
    VideoTrack.pushAll 1 trackWithParams keyNonKeyKey ≠ .panic .closeOfClosedChannel ∧
    VideoTrack.pushAll 1 trackWithParams keyNonKeyKey = .ok trackAfterTwoKeys ∧
    (trackAfterTwoKeys.WaitFirst = true ↔ trackAfterTwoKeys.RtmpTag ≠ none) ∧
    trackAfterTwoKeys.WaitFirst = true :=
  ⟨(first_frame_signal_once 1 trackWithParams keyNonKeyKey (by decide)).1, rfl,
    ((first_frame_signal_once 1 trackWithParams keyNonKeyKey (by decide)).2.1 _ rfl).1,
    by decide⟩


/-! ## C9: GOP and FirstScreen -/

/-- C9: a key-picture unit pushed after the first one (RtmpTag non-nil) sets
`GOP` to the write index minus `FirstScreen`, the write index of the previous
key frame, modulo 256, and sets `FirstScreen` to the write index; the first
key picture sets `FirstScreen` to the write index and leaves `GOP`; a unit
that is neither a key picture nor an aggregated or fragmented payload leaves
both unchanged, and so does a fragment that does not end a unit. -/
theorem GOP_is_key_frame_distance (fuel : Nat) (vt w : VideoTrack) (ts b0 : Nat)
    (rest : List Nat) (hi : vt.Buffer.Index < 256) (hf : vt.FirstScreen < 256)
    (hw : VideoTrack.Push fuel vt ts (b0 :: rest) = .ok w) :
    (b0 &&& naluTypeBitmask = NALU_IDR_Picture → vt.RtmpTag ≠ none →
      (w.GOP : Int) = ((vt.Buffer.Index : Int) - (vt.FirstScreen : Int)) % 256 ∧
      w.FirstScreen = vt.Buffer.Index) ∧
    (b0 &&& naluTypeBitmask = NALU_IDR_Picture → vt.RtmpTag = none →
      w.GOP = vt.GOP ∧ w.FirstScreen = vt.Buffer.Index) ∧
    (b0 &&& naluTypeBitmask ≠ NALU_IDR_Picture → b0 &&& naluTypeBitmask ≠ NALU_STAPA →
      b0 &&& naluTypeBitmask ≠ NALU_FUA →
      w.GOP = vt.GOP ∧ w.FirstScreen = vt.FirstScreen) ∧
    (b0 &&& naluTypeBitmask = NALU_FUA →
      (∀ b1 tl, rest = b1 :: tl → b1 &&& fuaEndBitmask = 0) →
      w.GOP = vt.GOP ∧ w.FirstScreen = vt.FirstScreen) := by
  cases fuel with
  | zero => simp [VideoTrack.Push, VideoTrack.PushSlice] at hw
  | succ n =>
    refine ⟨fun h5 hr => ?_, fun h5 hr => ?_, fun h5 h24 h28 => ?_, fun h28 he => ?_⟩
    · rw [Push_direct n vt ts b0 rest (by rw [h5]; decide) (by rw [h5]; decide), h5] at hw
      have hr2 : ¬ (vt.stamp ts b0).RtmpTag = none := hr
      simp only [VideoTrack.pushDirect, NALU_SPS, NALU_PPS, NALU_Access_Unit_Delimiter,
        NALU_IDR_Picture, Nat.reduceEqDiff, if_false, if_true, hr2, Outcome.ok.injEq] at hw
      subst hw
      simp only [VideoTrack.publish, VideoTrack.GetBPS, VideoTrack.setPayload,
        VideoTrack.stamp, VideoTrack.withCurrent, Ring.setCurrent, Ring.NextW]
      refine ⟨?_, trivial⟩
      omega
    · rw [Push_direct n vt ts b0 rest (by rw [h5]; decide) (by rw [h5]; decide), h5] at hw
      have hr2 : (vt.stamp ts b0).RtmpTag = none := hr
      simp only [VideoTrack.pushDirect, NALU_SPS, NALU_PPS, NALU_Access_Unit_Delimiter,
        NALU_IDR_Picture, Nat.reduceEqDiff, if_false, if_true, hr2,
        VideoTrack.setRtmpTag, VideoTrack.setRtmpTagWith] at hw
      split_ifs at hw
      · simp [Outcome.bind] at hw
      · simp [Outcome.bind] at hw
      · simp only [Outcome.bind, VideoTrack.closeWaitFirst] at hw
        split_ifs at hw
        simp only [Outcome.ok.injEq] at hw
        subst hw
        exact ⟨rfl, rfl⟩
    · rw [Push_direct n vt ts b0 rest h24 h28] at hw
      simp only [VideoTrack.pushDirect, h5, if_false] at hw
      split_ifs at hw
      all_goals simp only [Outcome.ok.injEq] at hw
      all_goals subst hw
      all_goals exact ⟨rfl, rfl⟩
    · cases rest with
      | nil =>
        simp +decide only [VideoTrack.Push, VideoTrack.PushSlice, h28, NALU_FUA, NALU_STAPA,
          if_true, if_false, Outcome.ok.injEq] at hw
        subst hw
        exact ⟨rfl, rfl⟩
      | cons b1 tl =>
        have hb := he b1 tl rfl
        simp +decide only [VideoTrack.Push, VideoTrack.PushSlice, h28, NALU_FUA, NALU_STAPA,
          if_true, if_false, hb, ne_eq, not_true_eq_false, Outcome.ok.injEq] at hw
        subst hw
        exact ⟨rfl, rfl⟩

/-- Instance of C9: the second key picture of `keyNonKeyKey` is pushed at
write index 2 with the previous key frame at index 0, so GOP becomes 2. -/
theorem GOP_is_key_frame_distance_witness :
    (trackAfterTwoKeys.GOP : Int) =
      ((trackAfterKeyAndOne.Buffer.Index : Int) - (trackAfterKeyAndOne.FirstScreen : Int)) % 256 ∧
    trackAfterTwoKeys.FirstScreen = trackAfterKeyAndOne.Buffer.Index ∧
    trackAfterTwoKeys.GOP = 2 :=
  ⟨((GOP_is_key_frame_distance 1 trackAfterKeyAndOne trackAfterTwoKeys 80 0x65 [0x89]
      (by decide) (by decide) rfl).1 (by decide) (by decide)).1,
   ((GOP_is_key_frame_distance 1 trackAfterKeyAndOne trackAfterTwoKeys 80 0x65 [0x89]
      (by decide) (by decide) rfl).1 (by decide) (by decide)).2, by decide⟩


/-! ## C10: how `ReceiveAudio` writes once a track exists -/

/-- C10 (fails on the code): once an audio track exists the write is chosen by
the tag of the unit, not by the codec of the track: a unit not tagged AAC is
written with `WriteRaw` also on an AAC track, and a unit tagged AAC is written
with `WriteADTS` also on a track that is not AAC. -/
theorem ReceiveAudio_dispatches_on_unit_tag {D R : Type} (p : PSPublisher D R)
    (es : MpegPsEsStream) (codec : AudioCodec) (ht : p.AudioTrack = some codec) :
    (es.EsType ≠ STREAM_TYPE_AAC →
      p.ReceiveAudio es = .ok (p.emit (.WriteRaw es.PTS es.Buffer))) ∧
    (es.EsType = STREAM_TYPE_AAC →
      p.ReceiveAudio es = .ok (p.emit (.WriteADTS es.PTS es.Buffer))) := by
  constructor
  · intro h
    simp [PSPublisher.ReceiveAudio, ht, h]
  · intro h
    simp [PSPublisher.ReceiveAudio, ht, h]

/-- Instance of C10: the first untagged ADTS unit creates an AAC track and is
written with `WriteADTS`; the next untagged ADTS unit of the same stream is
written with `WriteRaw`. -/
theorem ReceiveAudio_dispatches_on_unit_tag_witness :
    sniffedPublisher.AudioTrack = some (.AAC false) ∧
    sniffedPublisher.log = [Event.WriteADTS 100 [0xFF, 0xF1, 0x50, 0x80]] ∧
    sniffedPublisher.ReceiveAudio (untaggedAdts 200) =
      .ok (sniffedPublisher.emit (.WriteRaw 200 [0xFF, 0xF1, 0x50, 0x80])) :=
  ⟨by decide, by decide,
    (ReceiveAudio_dispatches_on_unit_tag sniffedPublisher (untaggedAdts 200) (.AAC false)
      (by decide)).1 (by decide)⟩


/-! ## C11: audio units that create no track -/

/-- C11 (amended): with no audio track, an untagged unit whose first byte is
not `0xFF`, or whose first byte is `0xFF` and whose second byte has a high
nibble other than `0xF`, leaves the publisher exactly as it was: no track, no
write and no error report; a unit of an unsupported type is reported as an
error, creates no track and nothing is written. -/
theorem ReceiveAudio_unrecognized {D R : Type} (p : PSPublisher D R) (es : MpegPsEsStream)
    (hn : p.AudioTrack = none) :
    (∀ b0 rest, es.EsType = 0 → es.Buffer = b0 :: rest → b0 ≠ 0xff →
      p.ReceiveAudio es = .ok p) ∧
    (∀ b1 rest, es.EsType = 0 → es.Buffer = 0xff :: b1 :: rest → b1 >>> 4 ≠ 0xf →
      p.ReceiveAudio es = .ok p) ∧
    (es.EsType ≠ 0 → es.EsType ≠ STREAM_TYPE_AAC → es.EsType ≠ STREAM_TYPE_G711A →
      es.EsType ≠ STREAM_TYPE_G711U →
      p.ReceiveAudio es = .ok (p.emit (.Error es.EsType)) ∧
      (p.emit (.Error es.EsType)).AudioTrack = none ∧
      (p.emit (.Error es.EsType)).log = p.log ++ [Event.Error es.EsType]) := by
  refine ⟨fun b0 rest h0 hb hne => ?_, fun b1 rest h0 hb hne => ?_, fun h0 h1 h2 h3 => ?_⟩
  · simp +decide [PSPublisher.ReceiveAudio, hn, h0, hb, hne, STREAM_TYPE_G711A,
      STREAM_TYPE_G711U, STREAM_TYPE_AAC]
  · simp +decide [PSPublisher.ReceiveAudio, hn, h0, hb, hne, STREAM_TYPE_G711A,
      STREAM_TYPE_G711U, STREAM_TYPE_AAC]
  · refine ⟨?_, hn, rfl⟩
    simp [PSPublisher.ReceiveAudio, hn, h0, h1, h2, h3]

/-- Instance of C11 (amended): an untagged unit starting `0x00 0x01` leaves a
publisher without track untouched; a unit of type `0x03` is reported. -/
theorem ReceiveAudio_unrecognized_witness :
    freshPublisher.ReceiveAudio { EsType := 0, Buffer := [0x00, 0x01], PTS := 9, DTS := 0 } =
      .ok freshPublisher ∧
    freshPublisher.ReceiveAudio { EsType := 3, Buffer := [0x00, 0x01], PTS := 9, DTS := 0 } =
      .ok (freshPublisher.emit (.Error 3)) :=
  ⟨(ReceiveAudio_unrecognized freshPublisher
      { EsType := 0, Buffer := [0x00, 0x01], PTS := 9, DTS := 0 } rfl).1 0x00 [0x01] rfl rfl
      (by decide),
   ((ReceiveAudio_unrecognized freshPublisher
      { EsType := 3, Buffer := [0x00, 0x01], PTS := 9, DTS := 0 } rfl).2.2 (by decide)
      (by decide) (by decide) (by decide)).1⟩

/-- C11 (fails on the code): with no audio track, the untagged unit whose
payload starts `0x00 0x01` (no ADTS sync pattern) is dropped without any error
report: the log of calls stays empty. -/
theorem ReceiveAudio_untagged_not_reported :
    ((freshPublisher.ReceiveAudio
        { EsType := 0, Buffer := [0x00, 0x01], PTS := 9, DTS := 0 }).toOption.map
      fun q => (q.log, q.AudioTrack)) = some ([], none) := by
  decide

/-! ## C12: an untagged ADTS payload creates the AAC track -/

/-- C12: with no audio track, an untagged unit whose first byte is `0xFF` and
whose second byte has high nibble `0xF` creates an AAC track and is written
with `WriteADTS`, with the unit's presentation timestamp and the same payload;
nothing else is called. -/
theorem ReceiveAudio_sniffs_adts {D R : Type} (p : PSPublisher D R) (es : MpegPsEsStream)
    (b1 : Nat) (rest : List Nat) (hn : p.AudioTrack = none) (h0 : es.EsType = 0)
    (hb : es.Buffer = 0xFF :: b1 :: rest) (hlo : 0xF0 ≤ b1) (hhi : b1 < 256) :
    ∃ q, p.ReceiveAudio es = .ok q ∧ q.AudioTrack = some (.AAC false) ∧
      q.log = p.log ++ [Event.WriteADTS es.PTS es.Buffer] ∧ q.VideoTrack = p.VideoTrack := by
  have hs : b1 >>> 4 = 0xf := by
    rw [Nat.shiftRight_eq_div_pow]
    omega
  refine ⟨{ p with AudioTrack := some (.AAC false) }.emit (.WriteADTS es.PTS es.Buffer),
    ?_, rfl, rfl, rfl⟩
  simp +decide [PSPublisher.ReceiveAudio, hn, h0, hb, hs, STREAM_TYPE_G711A,
    STREAM_TYPE_G711U, STREAM_TYPE_AAC]

/-- Instance of C12: the payload `FF F1 50 80` with timestamp 100. -/
theorem ReceiveAudio_sniffs_adts_witness :
    ∃ q, freshPublisher.ReceiveAudio (untaggedAdts 100) = .ok q ∧
      q.AudioTrack = some (.AAC false) ∧
      q.log = freshPublisher.log ++ [Event.WriteADTS (untaggedAdts 100).PTS
        (untaggedAdts 100).Buffer] ∧ q.VideoTrack = freshPublisher.VideoTrack :=
  ReceiveAudio_sniffs_adts freshPublisher (untaggedAdts 100) 0xF1 [0x50, 0x80] rfl rfl rfl
    (by decide) (by decide)


/-! ## C13: a lagging reader drops until the next key picture -/

theorem Reader.run_append (r : Reader) (a b : List VideoTrack) :
    r.run (a ++ b) = (r.run a).run b := by
  induction a generalizing r with
  | nil => rfl
  | cons vt more ih => exact ih (r.step vt)

/-- A dropping reader whose current slot is a key picture turns to sending
and advances. -/
theorem Reader.step_drop_at_key (vt : VideoTrack) (r : Reader) (hd : r.action = .drop)
    (hk : (vt.Buffer.buffer r.Index).NalType = NALU_IDR_Picture) :
    r.step vt =
      { Index := (r.Index + 1) % 256, action := .send, droped := r.droped,
        delivered := r.delivered } := by
  simp [Reader.step, hd, Reader.drop, hk, Reader.NextR]

/-- A dropping reader that passes only non-key slots delivers nothing, counts
each of them and stays dropping. -/
theorem Reader.run_dropping : ∀ (vts : List VideoTrack) (r : Reader), r.Index < 256 →
    r.action = .drop →
    (∀ j, j < vts.length →
      ((vts.getD j VideoTrack.zero).Buffer.buffer ((r.Index + j) % 256)).NalType ≠
        NALU_IDR_Picture) →
    (r.run vts).action = .drop ∧ (r.run vts).delivered = r.delivered ∧
    (r.run vts).droped = r.droped + vts.length ∧
    (r.run vts).Index = (r.Index + vts.length) % 256 := by
  intro vts
  induction vts with
  | nil =>
    intro r hi hd _
    refine ⟨hd, rfl, rfl, ?_⟩
    simp only [Reader.run, List.length_nil]
    omega
  | cons vt more ih =>
    intro r hi hd hnon
    have h0 : (vt.Buffer.buffer r.Index).NalType ≠ NALU_IDR_Picture := by
      have := hnon 0 (by simp)
      simpa [Nat.mod_eq_of_lt hi] using this
    have hstep : r.step vt = { r with droped := r.droped + 1, Index := (r.Index + 1) % 256 } := by
      simp [Reader.step, hd, Reader.drop, h0, Reader.NextR]
    have hrec := ih (r.step vt) (by rw [hstep]; exact Nat.mod_lt _ (by decide))
      (by rw [hstep]; exact hd)
      (by
        intro j hj
        have := hnon (j + 1) (by simp; omega)
        rw [hstep]
        simp only [List.getD_cons_succ] at this
        have e : ((r.Index + 1) % 256 + j) % 256 = (r.Index + (j + 1)) % 256 := by omega
        simpa only [e] using this)
    obtain ⟨a1, a2, a3, a4⟩ := hrec
    have e1 : (r.step vt).delivered = r.delivered := by rw [hstep]
    have e2 : (r.step vt).droped = r.droped + 1 := by rw [hstep]
    have e3 : (r.step vt).Index = (r.Index + 1) % 256 := by rw [hstep]
    simp only [Reader.run]
    refine ⟨a1, a2.trans e1, ?_, ?_⟩
    · rw [a3, e2]
      simp only [List.length_cons]
      omega
    · rw [a4, e3]
      simp only [List.length_cons]
      omega

/-- C13: a sending reader that observes a lag above 128 delivers the current
slot and turns to dropping; while the slots it then passes are non-key
pictures nothing is delivered and `droped` grows by one per slot; at the next
key picture it has delivered nothing more, `droped` has grown by exactly the
number of non-key slots passed, and the reader is sending again. -/
theorem lagged_reader_drops_until_key (r : Reader) (vt0 vtk : VideoTrack)
    (vts : List VideoTrack) (hi : r.Index < 256) (hp : vt0.Buffer.Index < 256)
    (hs : r.action = .send)
    (hlag : ((vt0.Buffer.Index : Int) - (r.Index : Int)) % 256 > 128)
    (hnon : ∀ j, j < vts.length →
      ((vts.getD j VideoTrack.zero).Buffer.buffer ((r.Index + 1 + j) % 256)).NalType ≠
        NALU_IDR_Picture)
    (hkey : (vtk.Buffer.buffer ((r.Index + 1 + vts.length) % 256)).NalType =
      NALU_IDR_Picture) :
    (r.step vt0).action = .drop ∧
    (r.step vt0).delivered = r.delivered ++ [vt0.Buffer.buffer r.Index] ∧
    (∀ m, m ≤ vts.length →
      ((r.step vt0).run (vts.take m)).delivered = (r.step vt0).delivered ∧
      ((r.step vt0).run (vts.take m)).droped = r.droped + m) ∧
    ((r.step vt0).run (vts ++ [vtk])).delivered = (r.step vt0).delivered ∧
    ((r.step vt0).run (vts ++ [vtk])).droped = r.droped + vts.length ∧
    ((r.step vt0).run (vts ++ [vtk])).action = .send := by
  have hl : (vt0.Buffer.Index + 256 - r.Index) % 256 > 128 := by omega
  have hstep : r.step vt0 =
      { Index := (r.Index + 1) % 256, action := .drop, droped := r.droped,
        delivered := r.delivered ++ [vt0.Buffer.buffer r.Index] } := by
    simp [Reader.step, hs, Reader.send, hl, Reader.NextR]
  have e0 : (r.step vt0).action = .drop := by rw [hstep]
  have e1 : (r.step vt0).delivered = r.delivered ++ [vt0.Buffer.buffer r.Index] := by rw [hstep]
  have e2 : (r.step vt0).droped = r.droped := by rw [hstep]
  have e3 : (r.step vt0).Index = (r.Index + 1) % 256 := by rw [hstep]
  have hrun : ∀ m, m ≤ vts.length →
      ((r.step vt0).run (vts.take m)).action = .drop ∧
      ((r.step vt0).run (vts.take m)).delivered = (r.step vt0).delivered ∧
      ((r.step vt0).run (vts.take m)).droped = r.droped + m ∧
      ((r.step vt0).run (vts.take m)).Index = (r.Index + 1 + m) % 256 := by
    intro m hm
    have h := Reader.run_dropping (vts.take m) (r.step vt0)
      (by rw [e3]; exact Nat.mod_lt _ (by decide)) e0
      (by
        intro j hj
        have hj2 : j < m := by
          simp only [List.length_take] at hj
          omega
        have := hnon j (by omega)
        rw [e3]
        have e : ((r.Index + 1) % 256 + j) % 256 = (r.Index + 1 + j) % 256 := by omega
        have e5 : (vts.take m).getD j VideoTrack.zero = vts.getD j VideoTrack.zero := by
          simp only [List.getD_eq_getElem?_getD, List.getElem?_take, hj2, if_true]
        simpa only [e, e5] using this)
    have hlen : (vts.take m).length = m := by
      simp only [List.length_take]
      omega
    obtain ⟨a1, a2, a3, a4⟩ := h
    rw [hlen] at a3 a4
    refine ⟨a1, a2, ?_, ?_⟩
    · rw [a3, e2]
    · rw [a4, e3]
      omega
  refine ⟨e0, e1, fun m hm => ⟨(hrun m hm).2.1, (hrun m hm).2.2.1⟩, ?_⟩
  obtain ⟨a1, a2, a3, a4⟩ := hrun vts.length (le_refl _)
  rw [List.take_length] at a1 a2 a3 a4
  rw [Reader.run_append]
  have hk2 : (vtk.Buffer.buffer ((r.step vt0).run vts).Index).NalType = NALU_IDR_Picture := by
    rw [a4]
    exact hkey
  have hlast : ((r.step vt0).run vts).run [vtk] = ((r.step vt0).run vts).step vtk := rfl
  rw [hlast, Reader.step_drop_at_key vtk _ a1 hk2]
  exact ⟨a2, a3, rfl⟩

/-- Instance of C13: the reader at slot 9 of `laggedTrack` (writer at 200)
delivers slot 9, drops slots 10 and 11 and is sending again after the key
picture in slot 12, with `droped = 2`. -/
theorem lagged_reader_drops_until_key_witness :
    (laggedReader.step laggedTrack).action = .drop ∧
    ((laggedReader.step laggedTrack).run ([laggedTrack, laggedTrack] ++ [laggedTrack])).droped =
      laggedReader.droped + [laggedTrack, laggedTrack].length ∧
    ((laggedReader.step laggedTrack).run
      ([laggedTrack, laggedTrack] ++ [laggedTrack])).delivered =
      [laggedTrack.Buffer.buffer 9] :=
  ⟨(lagged_reader_drops_until_key laggedReader laggedTrack laggedTrack
      [laggedTrack, laggedTrack] (by decide) (by decide) rfl (by decide) (by decide)
      (by decide)).1,
   (lagged_reader_drops_until_key laggedReader laggedTrack laggedTrack
      [laggedTrack, laggedTrack] (by decide) (by decide) rfl (by decide) (by decide)
      (by decide)).2.2.2.2.1,
   by decide⟩


/-! ## C14: the first key picture and the cached parameter sets -/

/-- C14 (fails on the code): on a track whose first key picture is still to
come and whose cached SPS has a capacity of fewer than 4 bytes (none received,
which is the nil slice of capacity 0, or a short one with fewer than 4 bytes
counting those behind it), pushing a key-picture unit ends in the slice
`vt.SPS[1:4]` of `setRtmpTag` being out of range. -/
theorem Push_first_key_with_short_SPS (fuel : Nat) (vt : VideoTrack) (ts b0 : Nat)
    (rest : List Nat) (h5 : b0 &&& naluTypeBitmask = NALU_IDR_Picture)
    (hr : vt.RtmpTag = none) (hs : vt.SPS.length + vt.SPSSpare.length < 4) :
    VideoTrack.Push (fuel + 1) vt ts (b0 :: rest) = .panic .sliceOutOfRange := by
  rw [Push_direct fuel vt ts b0 rest (by rw [h5]; decide) (by rw [h5]; decide), h5]
  have hr2 : (vt.stamp ts b0).RtmpTag = none := hr
  have hs2 : (vt.stamp ts b0).SPS.length + (vt.stamp ts b0).SPSSpare.length < 4 := hs
  simp only [VideoTrack.pushDirect, NALU_SPS, NALU_PPS, NALU_Access_Unit_Delimiter,
    NALU_IDR_Picture, Nat.reduceEqDiff, if_false, if_true, hr2, VideoTrack.setRtmpTag,
    VideoTrack.setRtmpTagWith]
  split_ifs <;> rfl

/-- Instance of C14: a key picture pushed on a new track, before any
parameter set, and on a track that holds a two-byte SPS received in a payload
of its own. -/
theorem Push_first_key_with_short_SPS_witness :
    VideoTrack.Push (0 + 1) VideoTrack.zero 0 (0x65 :: [0x88]) = .panic .sliceOutOfRange ∧
    (trackWithShortSPS.SPS = [0x67, 0x42] ∧ trackWithShortSPS.SPSSpare = []) ∧
    VideoTrack.Push (0 + 1) trackWithShortSPS 0 (0x65 :: [0x88]) = .panic .sliceOutOfRange :=
  ⟨Push_first_key_with_short_SPS 0 VideoTrack.zero 0 0x65 [0x88] (by decide) rfl (by decide),
   by decide,
   Push_first_key_with_short_SPS 0 trackWithShortSPS 0 0x65 [0x88] (by decide) rfl
     (by decide)⟩

/-! ## C15: which video track `ReceiveVideo` creates -/

/-- C15: with no video track, a unit declared H264 creates an H264 track and
one declared H265 an H265 track; any other unit creates an H264 track exactly
when the type parsed from its payload byte at offset 4 is non-IDR picture, IDR
picture, SEI, SPS, PPS or access-unit delimiter, and an H265 track otherwise.
An existing track is kept.  In each case the payload is forwarded to
`WriteAnnexB` with the presentation timestamp and the decode timestamp, the
latter replaced by the former when it is zero. -/
theorem ReceiveVideo_track_choice {D R : Type} (p : PSPublisher D R) (es : MpegPsEsStream) :
    (p.VideoTrack = none → es.EsType = STREAM_TYPE_H264 →
      ∃ q, p.ReceiveVideo es = .ok q ∧ q.VideoTrack = some .H264 ∧
        q.log = p.log ++
          [Event.WriteAnnexB es.PTS (if es.DTS = 0 then es.PTS else es.DTS) es.Buffer]) ∧
    (p.VideoTrack = none → es.EsType = STREAM_TYPE_H265 →
      ∃ q, p.ReceiveVideo es = .ok q ∧ q.VideoTrack = some .H265 ∧
        q.log = p.log ++
          [Event.WriteAnnexB es.PTS (if es.DTS = 0 then es.PTS else es.DTS) es.Buffer]) ∧
    (∀ b, p.VideoTrack = none → es.EsType ≠ STREAM_TYPE_H264 →
      es.EsType ≠ STREAM_TYPE_H265 → es.Buffer.get? 4 = some b →
      ∃ q, p.ReceiveVideo es = .ok q ∧
        (q.VideoTrack = some .H264 ↔
          (H264NALUType.Parse b = NALU_Non_IDR_Picture ∨
            H264NALUType.Parse b = NALU_IDR_Picture ∨ H264NALUType.Parse b = NALU_SEI ∨
            H264NALUType.Parse b = NALU_SPS ∨ H264NALUType.Parse b = NALU_PPS ∨
            H264NALUType.Parse b = NALU_Access_Unit_Delimiter)) ∧
        (q.VideoTrack = some .H264 ∨ q.VideoTrack = some .H265) ∧
        q.log.getLast? =
          some (Event.WriteAnnexB es.PTS (if es.DTS = 0 then es.PTS else es.DTS) es.Buffer)) ∧
    (∀ c, p.VideoTrack = some c →
      ∃ q, p.ReceiveVideo es = .ok q ∧ q.VideoTrack = some c ∧
        q.log = p.log ++
          [Event.WriteAnnexB es.PTS (if es.DTS = 0 then es.PTS else es.DTS) es.Buffer]) := by
  refine ⟨fun hn h => ?_, fun hn h => ?_, fun b hn h1 h2 hb => ?_, fun c hc => ?_⟩
  · refine ⟨({ p with VideoTrack := some .H264 }).emit
      (.WriteAnnexB es.PTS (if es.DTS = 0 then es.PTS else es.DTS) es.Buffer), ?_, rfl, rfl⟩
    simp only [PSPublisher.ReceiveVideo, hn, h, if_true, Outcome.bind]
  · have h1 : ¬ STREAM_TYPE_H265 = STREAM_TYPE_H264 := by decide
    refine ⟨({ p with VideoTrack := some .H265 }).emit
      (.WriteAnnexB es.PTS (if es.DTS = 0 then es.PTS else es.DTS) es.Buffer), ?_, rfl, rfl⟩
    simp only [PSPublisher.ReceiveVideo, hn, h, h1, if_true, if_false, Outcome.bind]
  · by_cases hd : H264NALUType.Parse b = NALU_Non_IDR_Picture ∨
        H264NALUType.Parse b = NALU_IDR_Picture ∨ H264NALUType.Parse b = NALU_SEI ∨
        H264NALUType.Parse b = NALU_SPS ∨ H264NALUType.Parse b = NALU_PPS ∨
        H264NALUType.Parse b = NALU_Access_Unit_Delimiter
    · refine ⟨({ p with VideoTrack := some .H264 }).emit
        (.WriteAnnexB es.PTS (if es.DTS = 0 then es.PTS else es.DTS) es.Buffer),
        ?_, ⟨fun _ => hd, fun _ => rfl⟩, Or.inl rfl, ?_⟩
      · simp only [PSPublisher.ReceiveVideo, hn, h1, h2, hb, hd, if_true, if_false,
          Outcome.bind]
      · simp [PSPublisher.emit]
    · refine ⟨({ (p.emit (.Info (H264NALUType.Parse b))) with VideoTrack := some .H265 }).emit
        (.WriteAnnexB es.PTS (if es.DTS = 0 then es.PTS else es.DTS) es.Buffer),
        ?_, ⟨fun h => ?_, fun h => absurd h hd⟩, Or.inr rfl, ?_⟩
      · simp only [PSPublisher.ReceiveVideo, hn, h1, h2, hb, hd, if_true, if_false,
          Outcome.bind]
      · simp [PSPublisher.emit] at h
      · simp [PSPublisher.emit]
  · have hc2 : ¬ p.VideoTrack = none := by rw [hc]; simp
    refine ⟨p.emit
      (.WriteAnnexB es.PTS (if es.DTS = 0 then es.PTS else es.DTS) es.Buffer), ?_, hc, rfl⟩
    simp only [PSPublisher.ReceiveVideo, hc2, if_false, Outcome.bind]

/-- Instance of C15: three units received without a video track (declared
H264; undeclared with an SPS header at offset 4; undeclared with byte `0x40`
at offset 4) and one received with an H265 track in place. -/
theorem ReceiveVideo_track_choice_witness :
    (∃ q, freshPublisher.ReceiveVideo
        { EsType := STREAM_TYPE_H264, Buffer := [0, 0, 0, 1, 0x67], PTS := 90, DTS := 0 } = .ok q ∧
      q.VideoTrack = some .H264 ∧
      q.log = freshPublisher.log ++ [Event.WriteAnnexB 90 (if 0 = 0 then 90 else 0)
        [0, 0, 0, 1, 0x67]]) ∧
    ((freshPublisher.ReceiveVideo
        { EsType := 0, Buffer := [0, 0, 0, 1, 0x67], PTS := 90, DTS := 0 }).toOption.map
      fun q => q.VideoTrack) = some (some .H264) ∧
    ((freshPublisher.ReceiveVideo
        { EsType := 0, Buffer := [0, 0, 0, 1, 0x40], PTS := 90, DTS := 80 }).toOption.map
      fun q => (q.VideoTrack, q.log)) =
      some (some .H265, [Event.Info 0, Event.WriteAnnexB 90 80 [0, 0, 0, 1, 0x40]]) :=
  ⟨(ReceiveVideo_track_choice freshPublisher
      { EsType := STREAM_TYPE_H264, Buffer := [0, 0, 0, 1, 0x67], PTS := 90, DTS := 0 }).1 rfl rfl,
   by decide, by decide⟩

/-! ## C16: short payloads in `ReceiveVideo` and `ReceiveAudio` -/

/-- C16 (fails on the code): with no video track, a unit declared neither
H264 nor H265 whose payload has fewer than 5 bytes makes `ReceiveVideo` index
`es.Buffer[4]` out of range; with no audio track, an untagged unit with an
empty payload, or with the one-byte payload `0xFF`, makes `ReceiveAudio` index
`payload[0]`, respectively `payload[1]`, out of range. -/
theorem Receive_short_payload_out_of_range {D R : Type} (p : PSPublisher D R)
    (es : MpegPsEsStream) :
    (p.VideoTrack = none → es.EsType ≠ STREAM_TYPE_H264 → es.EsType ≠ STREAM_TYPE_H265 →
      es.Buffer.length < 5 → p.ReceiveVideo es = .panic .indexOutOfRange) ∧
    (p.AudioTrack = none → es.EsType = 0 → es.Buffer = [] →
      p.ReceiveAudio es = .panic .indexOutOfRange) ∧
    (p.AudioTrack = none → es.EsType = 0 → es.Buffer = [0xff] →
      p.ReceiveAudio es = .panic .indexOutOfRange) := by
  refine ⟨fun hn h1 h2 hl => ?_, fun hn h0 hb => ?_, fun hn h0 hb => ?_⟩
  · have hg : es.Buffer.get? 4 = none := List.get?_eq_none.mpr (by omega)
    simp only [PSPublisher.ReceiveVideo, hn, h1, h2, hg, if_true, if_false, Outcome.bind]
  · simp +decide [PSPublisher.ReceiveAudio, hn, h0, hb, STREAM_TYPE_G711A,
      STREAM_TYPE_G711U, STREAM_TYPE_AAC]
  · simp +decide [PSPublisher.ReceiveAudio, hn, h0, hb, STREAM_TYPE_G711A,
      STREAM_TYPE_G711U, STREAM_TYPE_AAC]

/-- Instance of C16: an untagged video unit of 4 bytes and untagged audio
units of 0 bytes and of the single byte `0xFF`, on a publisher without tracks. -/
theorem Receive_short_payload_out_of_range_witness :
    freshPublisher.ReceiveVideo { EsType := 0, Buffer := [0, 0, 0, 1], PTS := 90, DTS := 0 } =
      .panic .indexOutOfRange ∧
    freshPublisher.ReceiveAudio { EsType := 0, Buffer := [], PTS := 90, DTS := 0 } =
      .panic .indexOutOfRange ∧
    freshPublisher.ReceiveAudio { EsType := 0, Buffer := [0xff], PTS := 90, DTS := 0 } =
      .panic .indexOutOfRange :=
  ⟨(Receive_short_payload_out_of_range freshPublisher
      { EsType := 0, Buffer := [0, 0, 0, 1], PTS := 90, DTS := 0 }).1 rfl (by decide)
      (by decide) (by decide),
   (Receive_short_payload_out_of_range freshPublisher
      { EsType := 0, Buffer := [], PTS := 90, DTS := 0 }).2.1 rfl rfl rfl,
   (Receive_short_payload_out_of_range freshPublisher
      { EsType := 0, Buffer := [0xff], PTS := 90, DTS := 0 }).2.2 rfl rfl rfl⟩


/-! ## C17: released items are fed, then recycled, once each -/

theorem PSPublisher.ReceiveVideo_feedlog {D R : Type} (p : PSPublisher D R)
    (es : MpegPsEsStream) : ∀ q, p.ReceiveVideo es = .ok q →
      q.log.filter Event.isFeedOrRecycle = p.log.filter Event.isFeedOrRecycle ∧
      q.reorder = p.reorder := by
  unfold PSPublisher.ReceiveVideo
  simp only [PSPublisher.emit]
  split_ifs
  all_goals try split
  all_goals try split_ifs
  all_goals intro q h
  all_goals first
    | (simp only [Outcome.bind, Outcome.ok.injEq] at h
       rw [← h]
       simp [List.filter_append, Event.isFeedOrRecycle])
    | (simp only [Outcome.bind] at h; cases h)

theorem PSPublisher.ReceiveAudio_feedlog {D R : Type} (p : PSPublisher D R)
    (es : MpegPsEsStream) : ∀ q, p.ReceiveAudio es = .ok q →
      q.log.filter Event.isFeedOrRecycle = p.log.filter Event.isFeedOrRecycle ∧
      q.reorder = p.reorder := by
  unfold PSPublisher.ReceiveAudio
  simp only [PSPublisher.emit]
  split_ifs
  all_goals try split
  all_goals try split_ifs
  all_goals try split
  all_goals try split_ifs
  all_goals intro q h
  all_goals first
    | (simp only [Outcome.ok.injEq] at h
       rw [← h]
       simp [List.filter_append, Event.isFeedOrRecycle])
    | cases h

theorem PSPublisher.handle_feedlog {D R : Type} : ∀ (units : List EsUnit)
    (p q : PSPublisher D R), PSPublisher.handle units p = .ok q →
      q.log.filter Event.isFeedOrRecycle = p.log.filter Event.isFeedOrRecycle ∧
      q.reorder = p.reorder := by
  intro units
  induction units with
  | nil =>
    intro p q h
    simp only [PSPublisher.handle, Outcome.ok.injEq] at h
    rw [← h]
    exact ⟨rfl, rfl⟩
  | cons u more ih =>
    intro p q h
    cases u with
    | video es =>
      simp only [PSPublisher.handle] at h
      cases hv : p.ReceiveVideo es with
      | ok p1 =>
        rw [hv] at h
        obtain ⟨a1, a2⟩ := PSPublisher.ReceiveVideo_feedlog p es p1 hv
        obtain ⟨b1, b2⟩ := ih p1 q h
        exact ⟨b1.trans a1, b2.trans a2⟩
      | panic k => rw [hv] at h; simp [Outcome.bind] at h
      | outOfFuel => rw [hv] at h; simp [Outcome.bind] at h
    | audio es =>
      simp only [PSPublisher.handle] at h
      cases hv : p.ReceiveAudio es with
      | ok p1 =>
        rw [hv] at h
        obtain ⟨a1, a2⟩ := PSPublisher.ReceiveAudio_feedlog p es p1 hv
        obtain ⟨b1, b2⟩ := ih p1 q h
        exact ⟨b1.trans a1, b2.trans a2⟩
      | panic k => rw [hv] at h; simp [Outcome.bind] at h
      | outOfFuel => rw [hv] at h; simp [Outcome.bind] at h

theorem PSPublisher.checkGap_feedlog {D R : Type} (dm : Demux D) (p : PSPublisher D R)
    (item : cacheItem) :
    (p.checkGap dm item).log.filter Event.isFeedOrRecycle =
      p.log.filter Event.isFeedOrRecycle ∧
    (p.checkGap dm item).reorder = p.reorder := by
  unfold PSPublisher.checkGap
  simp only [PSPublisher.emit]
  split_ifs <;> simp [List.filter_append, Event.isFeedOrRecycle]

/-- The loop body adds exactly one `Feed` of the item's bytes followed by one
`Recycle` of the item, whether or not the gap handling ran. -/
theorem PSPublisher.onReleased_feedlog {D R : Type} (dm : Demux D) (p q : PSPublisher D R)
    (item : cacheItem) (h : p.onReleased dm item = .ok q) :
    q.log.filter Event.isFeedOrRecycle =
      p.log.filter Event.isFeedOrRecycle ++ [Event.Feed item.Value, Event.Recycle item] ∧
    q.reorder = p.reorder := by
  obtain ⟨g1, g2⟩ := PSPublisher.checkGap_feedlog dm p item
  simp only [PSPublisher.onReleased, PSPublisher.Feed] at h
  cases hf : PSPublisher.handle (dm.feed (p.checkGap dm item).demux item.Value).2
      ({ p.checkGap dm item with
          demux := (dm.feed (p.checkGap dm item).demux item.Value).1 }.emit
        (Event.Feed item.Value)) with
  | ok p1 =>
    rw [hf] at h
    obtain ⟨a1, a2⟩ := PSPublisher.handle_feedlog _ _ _ hf
    simp only [Outcome.bind, Outcome.ok.injEq, PSPublisher.emit] at h
    rw [← h]
    simp only [PSPublisher.emit] at a1 a2
    simp only [List.filter_append, a1, a2, g1, g2]
    simp [Event.isFeedOrRecycle]
  | panic k => rw [hf] at h; simp [Outcome.bind] at h
  | outOfFuel => rw [hf] at h; simp [Outcome.bind] at h

theorem PSPublisher.releaseLoop_feedlog {D R : Type} (dm : Demux D) (ro : Reorder R) :
    ∀ (fuel : Nat) (first : Option cacheItem) (p q : PSPublisher D R),
      PSPublisher.releaseLoop dm ro fuel first p = .ok q →
      q.log.filter Event.isFeedOrRecycle =
        p.log.filter Event.isFeedOrRecycle ++
          (ro.drain fuel first p.reorder).flatMap
            (fun item => [Event.Feed item.Value, Event.Recycle item]) := by
  intro fuel
  induction fuel with
  | zero =>
    intro first p q h
    cases first with
    | none =>
      simp only [PSPublisher.releaseLoop, Outcome.ok.injEq] at h
      rw [← h]
      simp [Reorder.drain]
    | some item => simp [PSPublisher.releaseLoop] at h
  | succ n ih =>
    intro first p q h
    cases first with
    | none =>
      simp only [PSPublisher.releaseLoop, Outcome.ok.injEq] at h
      rw [← h]
      simp [Reorder.drain]
    | some item =>
      simp only [PSPublisher.releaseLoop] at h
      cases hb : p.onReleased dm item with
      | ok p1 =>
        rw [hb] at h
        simp only [Outcome.bind] at h
        obtain ⟨a1, a2⟩ := PSPublisher.onReleased_feedlog dm p p1 item hb
        have hrec := ih _ _ _ h
        simp only at hrec
        rw [hrec, a1, a2]
        simp [Reorder.drain, List.flatMap_cons]
      | panic k => rw [hb] at h; simp [Outcome.bind] at h
      | outOfFuel => rw [hb] at h; simp [Outcome.bind] at h

/-- C17: in a completed `PushPS` call with reordering enabled, the `Feed` and
`Recycle` calls added to the log are, for each item released by the reorder
buffer in release order, one `Feed` of its bytes followed by one `Recycle` of
the item, whether or not a gap was detected for it. -/
theorem PushPS_feeds_then_recycles_released {D R : Type} (dm : Demux D) (ro : Reorder R)
    (fuel : Nat) (p q : PSPublisher D R) (rtp : Packet) (hs : p.hasStream = true)
    (hr : p.DisableReorder = false) (h : PSPublisher.PushPS dm ro fuel p rtp = .ok q) :
    q.log.filter Event.isFeedOrRecycle =
      p.log.filter Event.isFeedOrRecycle ++
        (ro.drain fuel
          (ro.Push p.reorder rtp.SequenceNumber
            { Seq := rtp.SequenceNumber, Value := rtp.Payload }).1
          (ro.Push p.reorder rtp.SequenceNumber
            { Seq := rtp.SequenceNumber, Value := rtp.Payload }).2).flatMap
          (fun item => [Event.Feed item.Value, Event.Recycle item]) := by
  cases hpr : p.poolReady with
  | true =>
    simp only [PSPublisher.PushPS, hs, hr, hpr, not_true_eq_false, if_false,
      Bool.false_eq_true] at h
    exact PSPublisher.releaseLoop_feedlog dm ro _ _ _ _ h
  | false =>
    simp only [PSPublisher.PushPS, hs, hr, hpr, not_true_eq_false, if_false, if_true,
      Bool.false_eq_true, not_false_eq_true] at h
    exact PSPublisher.releaseLoop_feedlog dm ro _ _ _ _ h

/-- Instance of C17: the packet with sequence 11 is pushed while the reorder
buffer holds sequence 12; both are released, each fed and then recycled. -/
theorem PushPS_feeds_then_recycles_released_witness :
    (∃ q, PSPublisher.PushPS idleDemux queueReorder 5 queuedPublisher
        { SequenceNumber := 11, Payload := [1, 2] } = .ok q ∧
      q.log.filter Event.isFeedOrRecycle =
        [Event.Feed [1, 2], Event.Recycle { Seq := 11, Value := [1, 2] },
         Event.Feed [7, 8], Event.Recycle { Seq := 12, Value := [7, 8] }]) :=
  ⟨(PSPublisher.PushPS idleDemux queueReorder 5 queuedPublisher
      { SequenceNumber := 11, Payload := [1, 2] }).getD queuedPublisher, by decide,
    (PushPS_feeds_then_recycles_released idleDemux queueReorder 5 queuedPublisher _
      { SequenceNumber := 11, Payload := [1, 2] } rfl rfl (by decide)).trans (by decide)⟩


/-! ## C18: what the other units leave unchanged -/

/-- The opening writes touch only type, timestamp and sequence of the current
slot. -/
theorem VideoTrack.stamp_frame (vt : VideoTrack) (ts b0 : Nat) :
    (vt.stamp ts b0).Buffer.Index = vt.Buffer.Index ∧
    (vt.stamp ts b0).SPS = vt.SPS ∧ (vt.stamp ts b0).PPS = vt.PPS ∧
    (vt.stamp ts b0).SPSInfo = vt.SPSInfo ∧
    (vt.stamp ts b0).GOP = vt.GOP ∧ (vt.stamp ts b0).FirstScreen = vt.FirstScreen ∧
    (vt.stamp ts b0).RtmpTag = vt.RtmpTag ∧ (vt.stamp ts b0).WaitFirst = vt.WaitFirst ∧
    (vt.stamp ts b0).PacketCount = vt.PacketCount ∧ (vt.stamp ts b0).bytes = vt.bytes ∧
    (vt.stamp ts b0).Buffer.Current.Payload = vt.Buffer.Current.Payload ∧
    (∀ i, i ≠ vt.Buffer.Index → (vt.stamp ts b0).Buffer.buffer i = vt.Buffer.buffer i) := by
  refine ⟨rfl, rfl, rfl, rfl, rfl, rfl, rfl, rfl, rfl, rfl, ?_, fun i hi => ?_⟩
  · simp [VideoTrack.stamp]
  · simp [VideoTrack.stamp, VideoTrack.withCurrent, Ring.setCurrent, Function.update_noteq hi]

/-- C18 (amended): a unit whose type is delimiter, SEI, filler or unsupported
makes `Push` perform only the opening writes (type, timestamp and sequence of
the current slot): the write cursor, SPS, PPS, GOP, FirstScreen, RtmpTag, the
packet count, the payload of the current slot and every other slot are
unchanged.  An SPS unit does the same and sets SPS and SPSInfo to the payload
(the slice handed to `Push`, with nothing behind it); a PPS unit does the same
and sets PPS to the payload. -/
theorem Push_frame_of_other_units (fuel : Nat) (vt : VideoTrack) (ts b0 : Nat)
    (rest : List Nat) :
    (b0 &&& naluTypeBitmask ≠ NALU_Non_IDR_Picture → b0 &&& naluTypeBitmask ≠ NALU_IDR_Picture →
      b0 &&& naluTypeBitmask ≠ NALU_SPS → b0 &&& naluTypeBitmask ≠ NALU_PPS →
      b0 &&& naluTypeBitmask ≠ NALU_STAPA → b0 &&& naluTypeBitmask ≠ NALU_FUA →
      VideoTrack.Push (fuel + 1) vt ts (b0 :: rest) = .ok (vt.stamp ts b0)) ∧
    (b0 &&& naluTypeBitmask = NALU_SPS →
      VideoTrack.Push (fuel + 1) vt ts (b0 :: rest) =
        .ok { vt.stamp ts b0 with
              SPS := b0 :: rest, SPSSpare := [], SPSInfo := b0 :: rest }) ∧
    (b0 &&& naluTypeBitmask = NALU_PPS →
      VideoTrack.Push (fuel + 1) vt ts (b0 :: rest) =
        .ok { vt.stamp ts b0 with PPS := b0 :: rest }) ∧
    ((vt.stamp ts b0).Buffer.Index = vt.Buffer.Index ∧
      (vt.stamp ts b0).SPS = vt.SPS ∧ (vt.stamp ts b0).PPS = vt.PPS ∧
      (vt.stamp ts b0).GOP = vt.GOP ∧ (vt.stamp ts b0).FirstScreen = vt.FirstScreen ∧
      (vt.stamp ts b0).RtmpTag = vt.RtmpTag ∧
      (vt.stamp ts b0).PacketCount = vt.PacketCount ∧
      (vt.stamp ts b0).Buffer.Current.Payload = vt.Buffer.Current.Payload ∧
      (∀ i, i ≠ vt.Buffer.Index → (vt.stamp ts b0).Buffer.buffer i = vt.Buffer.buffer i)) := by
  refine ⟨fun h1 h5 h7 h8 h24 h28 => ?_, fun h7 => ?_, fun h8 => ?_, ?_⟩
  · rw [Push_direct fuel vt ts b0 rest h24 h28]
    simp only [VideoTrack.pushDirect, h1, h5, h7, h8, if_false]
    split_ifs <;> rfl
  · rw [Push_direct fuel vt ts b0 rest (by rw [h7]; decide) (by rw [h7]; decide)]
    simp only [VideoTrack.pushDirect, h7, if_true]
  · rw [Push_direct fuel vt ts b0 rest (by rw [h8]; decide) (by rw [h8]; decide)]
    have h7 : ¬ NALU_PPS = NALU_SPS := by decide
    simp only [VideoTrack.pushDirect, h8, h7, if_true, if_false]
  · obtain ⟨a1, a2, a3, _, a5, a6, a7, _, a9, _, a11, a12⟩ := VideoTrack.stamp_frame vt ts b0
    exact ⟨a1, a2, a3, a5, a6, a7, a9, a11, a12⟩

/-- Instance of C18 (amended): an SEI unit and an SPS unit on a new track. -/
theorem Push_frame_of_other_units_witness :
    VideoTrack.Push (0 + 1) VideoTrack.zero 7 (0x06 :: [0x05]) =
      .ok (VideoTrack.zero.stamp 7 0x06) ∧
    VideoTrack.Push (0 + 1) VideoTrack.zero 7 (0x67 :: [0x42, 0x00, 0x1E]) =
      .ok { VideoTrack.zero.stamp 7 0x67 with
            SPS := 0x67 :: [0x42, 0x00, 0x1E], SPSSpare := [],
            SPSInfo := 0x67 :: [0x42, 0x00, 0x1E] } :=
  ⟨(Push_frame_of_other_units 0 VideoTrack.zero 7 0x06 [0x05]).1 (by decide) (by decide)
      (by decide) (by decide) (by decide) (by decide),
   (Push_frame_of_other_units 0 VideoTrack.zero 7 0x67 [0x42, 0x00, 0x1E]).2.1 (by decide)⟩

/-- C18 (fails on the code): pushing an SPS unit with timestamp 7 on a new
track changes, besides the cached SPS, the current slot: its type becomes 7
and its timestamp 7 where both were 0. -/
theorem Push_SPS_also_stamps_slot :
    ((VideoTrack.Push 1 VideoTrack.zero 7 [0x67, 0x42, 0x00, 0x1E]).toOption.map
      fun w => (w.Buffer.Current.NalType, w.Buffer.Current.Timestamp)) = some (7, 7) ∧
    (VideoTrack.zero.Buffer.Current.NalType, VideoTrack.zero.Buffer.Current.Timestamp) =
      (0, 0) := by
  decide


/-! ## C19: the layout of the sequence header -/

/-- C19: with a cached SPS of at least 4 bytes and a cached PPS, both shorter
than 65536 bytes, `setRtmpTag` returns and sets `RtmpTag` to `RTMP_AVC_HEAD`
with bytes 6..8 replaced by `SPS[1..3]`, followed by `0xE1`, the SPS length in
two big-endian bytes, the SPS, `0x01`, the PPS length in two big-endian bytes
and the PPS; the length of the tag is `len(RTMP_AVC_HEAD) + 6 + len(SPS) +
len(PPS)`; every other field, SPS and PPS included, is unchanged.  The same
holds with any constant of at least 9 bytes in place of `RTMP_AVC_HEAD`. -/
theorem setRtmpTag_layout (vt : VideoTrack) (hs : 4 ≤ vt.SPS.length)
    (hsl : vt.SPS.length < 65536) (hpl : vt.PPS.length < 65536) :
    vt.setRtmpTag = .ok { vt with RtmpTag := some (rtmpTagLayout RTMP_AVC_HEAD vt.SPS vt.PPS) } ∧
    (rtmpTagLayout RTMP_AVC_HEAD vt.SPS vt.PPS).length =
      RTMP_AVC_HEAD.length + 6 + vt.SPS.length + vt.PPS.length ∧
    (∀ w, vt.setRtmpTag = .ok w → w.SPS = vt.SPS ∧ w.PPS = vt.PPS) ∧
    (∀ head : List Nat, 9 ≤ head.length →
      vt.setRtmpTagWith head = .ok { vt with RtmpTag := some (rtmpTagLayout head vt.SPS vt.PPS) } ∧
      (rtmpTagLayout head vt.SPS vt.PPS).length =
        head.length + 6 + vt.SPS.length + vt.PPS.length) := by
  have hgen : ∀ head : List Nat, 9 ≤ head.length →
      vt.setRtmpTagWith head = .ok { vt with RtmpTag := some (rtmpTagLayout head vt.SPS vt.PPS) } ∧
      (rtmpTagLayout head vt.SPS vt.PPS).length =
        head.length + 6 + vt.SPS.length + vt.PPS.length := by
    intro head hh
    have h3 : ((vt.SPS.drop 1).take 3).length = 3 := by
      simp only [List.length_take, List.length_drop]
      omega
    have c1 : ¬ head.length < 6 := by omega
    have c2 : ¬ vt.SPS.length + vt.SPSSpare.length < 4 := by omega
    have hin : ((vt.SPS ++ vt.SPSSpare).drop 1).take 3 = (vt.SPS.drop 1).take 3 := by
      rw [List.drop_append_of_le_length (by omega), List.take_append_of_le_length]
      simp only [List.length_drop]
      omega
    have e1 : (vt.SPS.length >>> 8) % 256 = vt.SPS.length / 256 := by
      rw [Nat.shiftRight_eq_div_pow]
      omega
    have e2 : (vt.PPS.length >>> 8) % 256 = vt.PPS.length / 256 := by
      rw [Nat.shiftRight_eq_div_pow]
      omega
    have hcopy : goCopy (head.drop 6) ((vt.SPS.drop 1).take 3) =
        (vt.SPS.drop 1).take 3 ++ head.drop 9 := by
      simp only [goCopy, h3, List.drop_drop]
      congr 1
      apply List.take_of_length_le
      simp only [h3, List.length_drop]
      omega
    constructor
    · simp only [VideoTrack.setRtmpTagWith, c1, c2, if_false, e1, e2, List.nil_append, hin,
        hcopy, rtmpTagLayout, List.append_assoc]
    · simp only [rtmpTagLayout, List.length_append, List.length_take, List.length_drop, h3,
        List.length_cons, List.length_nil]
      omega
  refine ⟨(hgen RTMP_AVC_HEAD (by decide)).1, (hgen RTMP_AVC_HEAD (by decide)).2,
    fun w hw => ?_, hgen⟩
  have hw2 : vt.setRtmpTagWith RTMP_AVC_HEAD = .ok w := hw
  rw [(hgen RTMP_AVC_HEAD (by decide)).1] at hw2
  simp only [Outcome.ok.injEq] at hw2
  have hw := hw2
  rw [← hw]
  exact ⟨rfl, rfl⟩

/-- Instance of C19: the SPS `67 42 00 1E` and the PPS `68 CE`. -/
theorem setRtmpTag_layout_witness :
    trackWithParams.setRtmpTag =
      .ok { trackWithParams with
            RtmpTag := some (rtmpTagLayout RTMP_AVC_HEAD trackWithParams.SPS
              trackWithParams.PPS) } ∧
    rtmpTagLayout RTMP_AVC_HEAD trackWithParams.SPS trackWithParams.PPS =
      [0x17, 0x00, 0x00, 0x00, 0x00, 0x01, 0x42, 0x00, 0x1E, 0xFF, 0xE1, 0x00, 0x04,
       0x67, 0x42, 0x00, 0x1E, 0x01, 0x00, 0x02, 0x68, 0xCE] :=
  ⟨(setRtmpTag_layout trackWithParams (by decide) (by decide) (by decide)).1, by decide⟩


/-! ## C20: the config handlers on an unknown name -/

/-- C20 (fails on the code): for a request whose name is non-empty and not a
key of `Plugins`, the lookup writes the 404 "no such config" error and leaves
`p` nil, but the handlers do not return there: `API_getConfig`,
`API_modifyConfig` and `API_updateConfig` go on to dereference `p` and panic. -/
theorem config_handlers_dereference_nil (api : Api) (r : Request) (hn : r.name ≠ "")
    (hk : api.Plugins.lookup r.name = none) :
    api.selectPlugin r = (none, [HttpEvent.Error NO_SUCH_CONIFG StatusNotFound]) ∧
    api.API_getConfig r = .panic .nilPointerDereference ∧
    api.API_modifyConfig r = .panic .nilPointerDereference ∧
    api.API_updateConfig r = .panic .nilPointerDereference := by
  have hsel : api.selectPlugin r = (none, [HttpEvent.Error NO_SUCH_CONIFG StatusNotFound]) := by
    simp only [Api.selectPlugin, hn, ne_eq, not_false_eq_true, if_true, hk]
  refine ⟨hsel, ?_, ?_, ?_⟩
  · simp only [Api.API_getConfig, hsel]
    split_ifs <;> rfl
  · simp only [Api.API_modifyConfig, hsel]
  · simp only [Api.API_updateConfig, hsel]

/-- Instance of C20: the name `nosuch` with `Plugins` holding only `rtmp`. -/
theorem config_handlers_dereference_nil_witness :
    demoApi.selectPlugin { name := "nosuch", hasYaml := false, Body := "" } =
      (none, [HttpEvent.Error NO_SUCH_CONIFG StatusNotFound]) ∧
    demoApi.API_getConfig { name := "nosuch", hasYaml := false, Body := "" } =
      .panic .nilPointerDereference ∧
    demoApi.API_modifyConfig { name := "nosuch", hasYaml := false, Body := "" } =
      .panic .nilPointerDereference ∧
    demoApi.API_updateConfig { name := "nosuch", hasYaml := false, Body := "" } =
      .panic .nilPointerDereference :=
  config_handlers_dereference_nil demoApi { name := "nosuch", hasYaml := false, Body := "" }
    (by decide) (by decide)

end Engine
